import Mathlib

/-!
Verification development for the OLX-Search-CLI aggregation pipeline
(`src/index.js` of the repository, exposed here from `src/unnamed/part_000`).

The JavaScript source is shallowly embedded: every function of the core
pipeline (`parsePrice`, `parseAd`, `normalize`, `getQueryTokens`,
`matchesTokens`, `matchesQuery`, `buildUrl`, the pagination loop of
`search`, the multi-state merge of `search`, and `searchRaw`) is translated
into an executable Lean definition.  Modelling conventions:

* JavaScript strings are Lean `String`s; character-level processing uses
  `List Char`.  Unicode lowering and NFD decomposition are modelled for the
  Basic Latin and Latin-1 repertoire (the repertoire of the marketplace
  data and of the category/stop-word tables); other characters are left
  unchanged by the lowering/decomposition tables.
* JavaScript numbers holding prices are modelled as `ℚ` (the price strings
  denote decimal fractions); counters and totals are `Nat`.
* `null`/`undefined`/missing fields are `Option.none`; JS truthiness on
  strings (`"" falsy`), numbers (`0` falsy) and booleans is modelled by the
  explicit `strTruthy`/`natTruthy`/`ratTruthy` helpers.
* HTTP transport and HTML extraction are abstracted into oracles:
  a page oracle `Nat → Option PageState` gives, for each page number, the
  result of `extractNextData` on the fetched page (`none` = extraction
  returned null); a detail oracle `String → Option DetailData` gives, for a
  permalink, the enrichment fields the detail-page parsing produced
  (`none` = the per-item try/catch swallowed a failure).  Transport
  exceptions that abort the whole search are outside the model: all claims
  below quantify over completed searches.
* `Promise.allSettled` of the multi-state branch settles the per-state
  sub-searches in request order; the model runs them sequentially, which
  preserves the stated ordering and isolation semantics.
-/

set_option maxRecDepth 2000

attribute [local semireducible] Rat.add Rat.mul Rat.inv Rat.sub

namespace OLX

/-! ## JavaScript truthiness helpers -/

/-- Truthiness of a JS string value: `""`, `null` and `undefined` are falsy. -/
def strTruthy : Option String → Option String
  | some v => if v = "" then none else some v
  | none => none

/-- `a || b` on JS string values (the result may itself be falsy). -/
def jsOrStr (a b : Option String) : Option String :=
  match strTruthy a with
  | some v => some v
  | none => b

/-- Truthiness of a JS number used as a `Nat`: `0`, `null`, `undefined` falsy. -/
def natTruthy : Option Nat → Option Nat
  | some v => if v = 0 then none else some v
  | none => none

/-- `a || b` where `b` is a known number, as in `ad.imageCount || images.length`. -/
def jsOrNat (a : Option Nat) (b : Nat) : Nat :=
  match natTruthy a with
  | some v => v
  | none => b

/-- Truthiness of a JS number used as a price (`ℚ`): `0`, `null` falsy. -/
def ratTruthy : Option ℚ → Option ℚ
  | some v => if v = 0 then none else some v
  | none => none

/-- `x || false` on an optional JS boolean field. -/
def boolOrFalse (b : Option Bool) : Bool := b.getD false

/-! ## `normalize` (source lines 590-598)

`str.toLowerCase().normalize("NFD").replace(/[̀-ͯ]/g, "")
   .replace(/[^\w\s]/g, " ").replace(/\s+/g, " ").trim()` -/

/-- JS `toLowerCase`, modelled on Basic Latin and Latin-1. -/
def jsToLower (c : Char) : Char :=
  if 'A' ≤ c ∧ c ≤ 'Z' then Char.ofNat (c.toNat + 32)
  else if 0xC0 ≤ c.toNat ∧ c.toNat ≤ 0xDE ∧ c.toNat ≠ 0xD7 then Char.ofNat (c.toNat + 32)
  else c

/-- NFD decomposition, modelled on the Latin-1 letters (the input is already
lowercased when this runs, matching the order of operations in `normalize`). -/
def nfdChar (c : Char) : List Char :=
  match c with
  | 'à' => ['a', '̀'] | 'á' => ['a', '́'] | 'â' => ['a', '̂']
  | 'ã' => ['a', '̃'] | 'ä' => ['a', '̈'] | 'å' => ['a', '̊']
  | 'ç' => ['c', '̧']
  | 'è' => ['e', '̀'] | 'é' => ['e', '́'] | 'ê' => ['e', '̂']
  | 'ë' => ['e', '̈']
  | 'ì' => ['i', '̀'] | 'í' => ['i', '́'] | 'î' => ['i', '̂']
  | 'ï' => ['i', '̈']
  | 'ñ' => ['n', '̃']
  | 'ò' => ['o', '̀'] | 'ó' => ['o', '́'] | 'ô' => ['o', '̂']
  | 'õ' => ['o', '̃'] | 'ö' => ['o', '̈']
  | 'ù' => ['u', '̀'] | 'ú' => ['u', '́'] | 'û' => ['u', '̂']
  | 'ü' => ['u', '̈']
  | 'ý' => ['y', '́'] | 'ÿ' => ['y', '̈']
  | _ => [c]

/-- Combining diacritical marks, the range `[̀-ͯ]`. -/
def isCombining (c : Char) : Bool := 0x300 ≤ c.toNat ∧ c.toNat ≤ 0x36F

/-- A `\w` word character of a non-unicode JS regex: `[A-Za-z0-9_]`. -/
def isWordChar (c : Char) : Bool :=
  ('a' ≤ c ∧ c ≤ 'z') ∨ ('A' ≤ c ∧ c ≤ 'Z') ∨ ('0' ≤ c ∧ c ≤ '9') ∨ c = '_'

/-- A `\s` whitespace character (the ASCII portion of the JS class). -/
def isJsSpace (c : Char) : Bool :=
  c = ' ' ∨ c = '\t' ∨ c = '\n' ∨ c = '\r' ∨ c = '\x0b' ∨ c = '\x0c'

/-- `replace(/\s+/g, " ")`: collapse every whitespace run to one space.
The flag records whether the previous character was part of a run. -/
def collapseWsAux : Bool → List Char → List Char
  | _, [] => []
  | prevSpace, c :: rest =>
    if isJsSpace c then
      if prevSpace then collapseWsAux true rest
      else ' ' :: collapseWsAux true rest
    else c :: collapseWsAux false rest

/-- JS `trim` (on whitespace as modelled by `isJsSpace`). -/
def trimChars (l : List Char) : List Char :=
  ((l.dropWhile isJsSpace).reverse.dropWhile isJsSpace).reverse

/-- `normalize(str)` from the source: lowercase, NFD, strip combining marks,
map non-word non-space characters to spaces, collapse whitespace, trim. -/
def normalize (s : String) : List Char :=
  trimChars (collapseWsAux false
    ((((s.toList.map jsToLower).flatMap nfdChar).filter (fun c => ¬ isCombining c)).map
      (fun c => if isWordChar c ∨ isJsSpace c then c else ' ')))

/-! ## Stop words and tokenization (source lines 601-634) -/

/-- `STOP_WORDS` from the source. -/
def STOP_WORDS : List String :=
  ["de", "da", "do", "das", "dos", "e", "ou", "em", "com", "para", "por", "um", "uma",
   "o", "a", "os", "as", "no", "na", "nos", "nas",
   "the", "and", "or", "for", "in", "of", "to", "with"]

/-- The stop words as character lists. -/
def stopWordChars : List (List Char) := STOP_WORDS.map String.toList

/-- `getQueryTokens(query)`: split the normalized query on spaces and keep
tokens longer than one character that are not stop words. -/
def getQueryTokens (query : String) : List (List Char) :=
  ((normalize query).splitOn ' ').filter
    (fun t => 1 < t.length ∧ t ∉ stopWordChars)

/-- `corpus.includes(token)`: substring test on character lists. -/
def hasSub (corpus tok : List Char) : Bool :=
  (List.range (corpus.length + 1)).any (fun i => tok.isPrefixOf (corpus.drop i))

/-! ## `parsePrice` (source lines 643-651)

`priceStr.replace(/[^\d.,]/g, "").replace(/\./g, "").replace(",", ".")`
followed by `parseFloat`; `NaN` yields `null`. -/

/-- Digit-list to natural number. -/
def digitsToNat (ds : List Char) : Nat :=
  ds.foldl (fun acc c => acc * 10 + (c.toNat - '0'.toNat)) 0

/-- JS `parseFloat` restricted to the strings `parsePrice` can feed it
(digits, dots and commas only; no sign, no exponent): parse the longest
prefix of the form `digits [ "." digits ]`; `none` models `NaN`. -/
def parseFloatPrefix (cs : List Char) : Option ℚ :=
  let intPart := cs.takeWhile Char.isDigit
  let rest := cs.drop intPart.length
  match rest with
  | '.' :: rest2 =>
    let fracPart := rest2.takeWhile Char.isDigit
    if intPart.isEmpty ∧ fracPart.isEmpty then none
    else some ((digitsToNat intPart : ℚ) + (digitsToNat fracPart : ℚ) / (10 : ℚ) ^ fracPart.length)
  | _ => if intPart.isEmpty then none else some (digitsToNat intPart : ℚ)

/-- `replace(",", ".")`: JS `String.replace` with a string pattern replaces
only the first occurrence. -/
def replaceFirstComma : List Char → List Char
  | [] => []
  | c :: rest => if c = ',' then '.' :: rest else c :: replaceFirstComma rest

/-- `parsePrice(priceStr)`; the argument is optional because the source
passes possibly-undefined fields and rejects falsy input. -/
def parsePrice (priceStr : Option String) : Option ℚ :=
  match strTruthy priceStr with
  | none => none
  | some s =>
    let cleaned := replaceFirstComma
      (((s.toList.filter (fun c => c.isDigit ∨ c = '.' ∨ c = ',')).filter (fun c => c ≠ '.')))
    parseFloatPrefix cleaned

/-- JS `Math.round` (half toward `+∞`): `⌊q + 1/2⌋`. -/
def jsRound (q : ℚ) : Int := Rat.floor (q + 1 / 2)

/-- The `discountPercent` derivation of `parseAd` (source lines 668-671):
`if (oldPrice && price && oldPrice > price) round(((oldPrice - price) / oldPrice) * 100)`. -/
def discountOf (oldPrice price : Option ℚ) : Option Int :=
  match ratTruthy oldPrice, ratTruthy price with
  | some o, some p => if o > p then some (jsRound ((o - p) / o * 100)) else none
  | _, _ => none

/-! ## Raw upstream records and the canonical `Item` (source lines 653-739) -/

/-- One entry of a raw `ad.images` array. -/
structure RawImage where
  original : Option String
  originalWebp : Option String
  deriving Repr, DecidableEq

/-- One entry of a raw `ad.properties` array. -/
structure RawProp where
  name : String
  label : Option String
  value : Option String
  deriving Repr, DecidableEq

/-- Raw `ad.locationDetails`. -/
structure RawLocationDetails where
  municipality : Option String
  uf : Option String
  neighbourhood : Option String
  deriving Repr, DecidableEq

/-- A raw `{enabled}` flag object (`ad.olxPay`, `ad.olxDelivery`). -/
structure RawFlag where
  enabled : Option Bool
  deriving Repr, DecidableEq

/-- A raw ad entry from `pageProps.ads`.  The `listId` is modelled as a
string key (the upstream numeric id, rendered). -/
structure RawAd where
  listId : Option String
  subject : Option String
  title : Option String
  priceValue : Option String
  price : Option String
  oldPrice : Option String
  images : Option (List RawImage)
  properties : Option (List RawProp)
  location : Option String
  locationDetails : Option RawLocationDetails
  url : Option String
  friendlyUrl : Option String
  date : Option Nat
  origListTime : Option Nat
  professionalAd : Option Bool
  olxPay : Option RawFlag
  olxDelivery : Option RawFlag
  imageCount : Option Nat
  videoCount : Option Nat
  categoryName : Option String
  category : Option String
  listingCategoryId : Option String
  searchCategoryLevelOne : Option String
  isFeatured : Option Bool
  priceReductionBadge : Option Bool
  deriving Repr, DecidableEq

/-- A normalised image entry `{url, urlWebp}`. -/
structure ImageOut where
  url : String
  urlWebp : Option String
  deriving Repr, DecidableEq

/-- A normalised `{name, value}` pair (listing properties and detail
attributes). -/
structure PropOut where
  name : String
  value : Option String
  deriving Repr, DecidableEq

/-- Normalised `locationDetails`. -/
structure LocationDetailsOut where
  municipality : Option String
  uf : Option String
  neighbourhood : Option String
  deriving Repr, DecidableEq

/-- The canonical Item produced by `parseAd`.  The derived ISO-8601 date
string is presentation-only and is represented by its epoch timestamp. -/
structure Item where
  id : Option String
  title : String
  price : Option ℚ
  currency : String
  oldPrice : Option ℚ
  discountPercent : Option Int
  location : Option String
  locationDetails : Option LocationDetailsOut
  dateTimestamp : Option Nat
  professionalAd : Bool
  thumbnail : Option String
  images : Option (List ImageOut)
  imageCount : Nat
  videoCount : Nat
  permalink : String
  category : Option String
  categoryId : Option String
  properties : Option (List PropOut)
  olxPay : Bool
  olxDelivery : Bool
  isFeatured : Bool
  priceReduction : Bool
  description : Option String
  attributes : Option (List PropOut)
  sellerName : Option String
  deriving Repr, DecidableEq

/-- `parseAd(ad)` (source lines 659-739).  `none` models the `null` returned
for a missing ad or a missing title. -/
def parseAd : Option RawAd → Option Item
  | none => none
  | some ad =>
    match strTruthy (jsOrStr ad.subject ad.title) with
    | none => none
    | some title =>
      let price := parsePrice (jsOrStr ad.priceValue ad.price)
      let oldPrice := parsePrice ad.oldPrice
      let discountPercent : Option Int := discountOf oldPrice price
      let images : List ImageOut :=
        match ad.images with
        | none => []
        | some imgs => imgs.filterMap (fun img =>
            match strTruthy (jsOrStr img.original img.originalWebp) with
            | some u => some { url := u, urlWebp := strTruthy img.originalWebp }
            | none => none)
      let thumbnail := images.head?.map ImageOut.url
      let properties : List PropOut :=
        match ad.properties with
        | none => []
        | some ps => (ps.filter (fun p => p.name ≠ "category")).map (fun p =>
            { name := match strTruthy p.label with
                      | some l => l
                      | none => p.name,
              value := p.value })
      let date : Option Nat :=
        match natTruthy ad.date with
        | some d => some d
        | none => natTruthy ad.origListTime
      some {
        id := strTruthy ad.listId,
        title := title,
        price := price,
        currency := "BRL",
        oldPrice := oldPrice,
        discountPercent := discountPercent,
        location := strTruthy ad.location,
        locationDetails := ad.locationDetails.map (fun ld =>
          { municipality := strTruthy ld.municipality,
            uf := strTruthy ld.uf,
            neighbourhood := strTruthy ld.neighbourhood }),
        dateTimestamp := date,
        professionalAd := boolOrFalse ad.professionalAd,
        thumbnail := thumbnail,
        images := if images.length > 0 then some images else none,
        imageCount := jsOrNat ad.imageCount images.length,
        videoCount := jsOrNat ad.videoCount 0,
        permalink := (strTruthy (jsOrStr ad.url ad.friendlyUrl)).getD "",
        category := strTruthy (jsOrStr ad.categoryName ad.category),
        categoryId := strTruthy (jsOrStr ad.listingCategoryId ad.searchCategoryLevelOne),
        properties := if properties.length > 0 then some properties else none,
        olxPay := boolOrFalse (ad.olxPay.bind RawFlag.enabled),
        olxDelivery := boolOrFalse (ad.olxDelivery.bind RawFlag.enabled),
        isFeatured := boolOrFalse ad.isFeatured,
        priceReduction := boolOrFalse ad.priceReductionBadge,
        description := none,
        attributes := none,
        sellerName := none }

/-! ## `matchesTokens` / `matchesQuery` (source lines 618-634) -/

/-- The text corpus of `matchesTokens`: normalized title, then (if truthy)
the normalized description, then every normalized property value, joined by
single spaces. -/
def corpusOf (item : Item) : List Char :=
  (normalize item.title)
    ++ (match strTruthy item.description with
        | some d => ' ' :: normalize d
        | none => [])
    ++ (match item.properties with
        | some ps => ps.flatMap (fun p => ' ' :: normalize ((strTruthy p.value).getD ""))
        | none => [])

/-- `matchesTokens(item, tokens)`. -/
def matchesTokens (item : Item) (tokens : List (List Char)) : Bool :=
  if tokens.length = 0 then true
  else tokens.all (fun token => hasSub (corpusOf item) token)

/-- `matchesQuery(item, query)`. -/
def matchesQuery (item : Item) (query : String) : Bool :=
  matchesTokens item (getQueryTokens query)

/-! ## Static tables (source lines 13-178) -/

def MARKETPLACE_DOMAIN : String := "www.olx.com.br"
def DEFAULT_LIMIT : Nat := 20
def DEFAULT_TIMEOUT : Nat := 15000
def DEFAULT_CONCURRENCY : Nat := 5

/-- `VALID_STATES`. -/
def VALID_STATES : List String :=
  ["ac", "al", "ap", "am", "ba", "ce", "df", "es", "go", "ma", "mt", "ms", "mg",
   "pa", "pb", "pr", "pe", "pi", "rj", "rn", "rs", "ro", "rr", "sc", "sp", "se", "to"]

/-- The slugs of the `CATEGORIES` map (the display names only feed the error
message text, which is not modelled). -/
def CATEGORY_SLUGS : List String :=
  ["imoveis", "imoveis/venda", "imoveis/aluguel", "imoveis/temporada", "imoveis/terrenos",
   "imoveis/comercio-e-industria", "imoveis/lancamentos", "autos-e-pecas",
   "autos-e-pecas/carros-vans-e-utilitarios", "autos-e-pecas/motos", "autos-e-pecas/onibus",
   "autos-e-pecas/caminhoes", "autos-e-pecas/barcos-e-aeronaves", "autos-e-pecas/pecas-e-acessorios",
   "autos-e-pecas/pecas-e-acessorios/carros-vans-e-utilitarios", "autos-e-pecas/pecas-e-acessorios/motos",
   "autos-e-pecas/pecas-e-acessorios/onibus", "autos-e-pecas/pecas-e-acessorios/caminhoes",
   "autos-e-pecas/pecas-e-acessorios/barcos-e-aeronaves", "para-a-sua-casa",
   "para-a-sua-casa/cama-mesa-e-banho", "para-a-sua-casa/decoracoes-para-casa",
   "para-a-sua-casa/casa-inteligente", "para-a-sua-casa/utensilios-para-cozinha",
   "para-a-sua-casa/utensilios-para-banheiro-e-limpeza", "para-a-sua-casa/iluminacao",
   "para-a-sua-casa/seguranca-residencial", "para-a-sua-casa/jardinagem-e-plantas",
   "para-a-sua-casa/area-externa", "moveis", "moveis/camas-e-colchoes", "moveis/sofas-e-poltronas",
   "moveis/cadeiras-de-escritorio-e-gamer", "moveis/bancos-e-cadeiras", "moveis/mesas",
   "moveis/escrivaninhas-e-penteadeiras", "moveis/racks-e-paineis", "moveis/armarios-e-guarda-roupas",
   "moveis/moveis-para-organizacao", "eletro", "eletro/ar-condicionados",
   "eletro/ventiladores-e-climatizadores", "eletro/geladeiras-e-freezers", "eletro/fogoes-e-fornos",
   "eletro/maquinas-de-lavar-e-secadoras", "eletro/eletroportateis-para-cozinha-e-limpeza",
   "eletro/eletroportateis-para-cuidados-pessoais", "materiais-de-construcao",
   "materiais-de-construcao/fundacao-e-estrutura", "materiais-de-construcao/alvenaria",
   "materiais-de-construcao/pisos-e-revestimentos", "materiais-de-construcao/portas-e-janelas",
   "materiais-de-construcao/cubas-e-pias", "materiais-de-construcao/torneiras-duchas-e-vasos",
   "materiais-de-construcao/instalacoes-eletricas-e-hidraulicas",
   "materiais-de-construcao/ferramentas-de-construcao", "materiais-de-construcao/ferramentas-de-pintura",
   "eletronicos-e-celulares", "celulares", "eletronicos-e-celulares/acessorios-de-celular",
   "eletronicos-e-celulares/pecas-de-celular", "eletronicos-e-celulares/smartwatches",
   "eletronicos-e-celulares/acessorios-para-smartwatch", "eletronicos-e-celulares/telefonia-fixa-e-sem-fio",
   "informatica", "informatica/computadores-e-desktops", "informatica/notebooks", "informatica/monitores",
   "informatica/perifericos-e-acessorios-de-computador", "informatica/pecas-de-hardware",
   "informatica/armazenamento", "informatica/memoria-ram", "informatica/processadores",
   "informatica/placas-de-video", "informatica/conectividade-e-dispositivos-de-rede",
   "informatica/tablets-e-readers", "games", "games/consoles-de-video-game", "games/jogos-de-video-game",
   "games/acessorios-de-video-game", "tvs-e-video", "tvs-e-video/tvs", "tvs-e-video/acessorios-para-tv",
   "tvs-e-video/projetores-e-telas-de-projecao", "tvs-e-video/dvd-blu-ray-video-cassete",
   "tvs-e-video/dispositivos-de-streaming", "audio", "audio/fones-de-ouvido", "audio/aparelhos-de-som",
   "audio/microfones-e-gravadores", "audio/equipamentos-e-acessorios-de-som", "cameras-e-drones",
   "cameras-e-filmadoras", "acessorios-para-cameras-e-filmadoras", "drones", "moda-e-beleza",
   "beleza-e-saude", "roupas", "bolsas-malas-e-mochilas", "bijouteria-relogios-e-acessorios", "calcados",
   "comercio-e-escritorio", "comercio-e-escritorio/equipamentos", "comercio-e-escritorio/gastronomia",
   "comercio-e-escritorio/equipamento-medico", "comercio-e-escritorio/uniformes-epis",
   "comercio-e-escritorio/trailers-e-carrinhos-comerciais", "escritorio",
   "escritorio/itens-para-escritorio", "escritorio/cadeiras-de-escritorio",
   "escritorio/moveis-de-escritorio", "escritorio/papelaria", "musica-e-hobbies",
   "instrumentos-musicais", "cds-dvds", "livros-e-revistas", "antiguidades", "hobbies-e-colecoes",
   "esportes-e-lazer", "ciclismo", "esportes-e-lazer/academia-e-exercicios",
   "esportes-e-lazer/acampamento", "esportes-e-lazer/esportes-sobre-rodas",
   "esportes-e-lazer/quadra-e-ao-ar-livre", "esportes-e-lazer/esportes-aquaticos",
   "esportes-e-lazer/roupas-esportivas", "esportes-e-lazer/calcados-esportivos",
   "esportes-e-lazer/acessorios-de-ciclismo", "artigos-infantis", "artigos-infantis/roupas-infantis",
   "artigos-infantis/calcados-infantis", "artigos-infantis/roupas-para-bebes",
   "artigos-infantis/calcados-para-bebes", "artigos-infantis/brinquedos",
   "artigos-infantis/maternidade-e-bebes", "artigos-infantis/moveis-infantis", "animais-de-estimacao",
   "animais-de-estimacao/cachorros", "animais-de-estimacao/gatos", "animais-de-estimacao/acessorios",
   "animais-de-estimacao/roedores", "animais-de-estimacao/outros-animais", "agro-e-industria",
   "agro-e-industria/tratores-e-maquinas-agricolas", "agro-e-industria/maquinas-pesadas-para-construcao",
   "agro-e-industria/maquinas-para-producao-industrial", "agro-e-industria/pecas-para-tratores-e-maquinas",
   "agro-e-industria/animais-para-agropecuaria", "agro-e-industria/producao-rural",
   "agro-e-industria/outros-itens-para-agro-e-industria", "servicos", "vagas-de-emprego"]

/-! ## `buildUrl` (source lines 476-499)

Percent-encoding of `URLSearchParams` is not modelled; the URL is an opaque
echo value for every claim below. -/

/-- Lowercase a whole string with `jsToLower`. -/
def lowerStr (s : String) : String := String.mk (s.toList.map jsToLower)

/-- JS `trim` on a string. -/
def trimStr (s : String) : String := String.mk (trimChars s.toList)

def buildUrl (query : String) (sort : Option String) (page : Nat)
    (state : Option String) (category : Option String) : String :=
  let path :=
    match strTruthy category, strTruthy state with
    | some c, some s => "/" ++ c ++ "/estado-" ++ lowerStr s
    | some c, none => "/" ++ c
    | none, some s => "/estado-" ++ lowerStr s
    | none, none => "/brasil"
  let params := "q=" ++ query
    ++ (if page > 1 then "&o=" ++ toString page else "")
    ++ (if sort = some "price_asc" then "&sp=1"
        else if sort = some "price_desc" then "&sp=2"
        else if sort = some "date" then "&sf=1"
        else "")
  "https://" ++ MARKETPLACE_DOMAIN ++ path ++ "?" ++ params

/-! ## Page state, options, results -/

/-- The `pageProps` object extracted from a listing page.  `ads = none`
models a missing or non-array `ads` field; `totalOfAds = none` models a
missing count (`?? Infinity` in the source). -/
structure PageState where
  ads : Option (List (Option RawAd))
  totalOfAds : Option Nat
  pageSize : Option Nat
  selectedCategoryCode : Option String
  deriving Repr, DecidableEq

/-- The fields the detail-page parsing assigns into an item on success
(the object built at source lines 381-386, already post-processed). -/
structure DetailData where
  description : Option String
  images : Option (List ImageOut)
  attributes : Option (List PropOut)
  sellerName : Option String
  deriving Repr, DecidableEq

/-- The options bag of `search`/`searchRaw`, with the source defaults.
`timeout` and `concurrency` only shape transport behaviour and batch sizes,
which the oracles abstract over; they are carried for fidelity. -/
structure SearchOptions where
  limit : Nat := DEFAULT_LIMIT
  timeout : Nat := DEFAULT_TIMEOUT
  sort : Option String := none
  concurrency : Nat := DEFAULT_CONCURRENCY
  state : Option String := none
  category : Option String := none
  strict : Bool := false
  deriving Repr, DecidableEq

/-- The `query` echo object of a search result. -/
structure QueryEcho where
  text : String
  sort : Option String
  state : Option String
  states : List String
  category : Option String
  strict : Bool
  url : Option String
  deriving Repr, DecidableEq

/-- The `pagination` object of a search result. -/
structure PaginationInfo where
  total : Nat
  page : Nat
  pageSize : Nat
  limit : Nat
  maxPages : Nat
  resultsLimit : Nat
  capped : Bool
  deriving Repr, DecidableEq

/-- A completed search result. -/
structure SearchResult where
  items : List Item
  query : QueryEcho
  pagination : PaginationInfo
  deriving Repr, DecidableEq

/-- The errors `search`/`searchRaw` throw before or instead of returning. -/
inductive SearchError where
  | unknownCategory (slug : String)
  | unknownState (s : String)
  | extraction
  deriving Repr, DecidableEq

/-! ## The pagination loop of `search` (source lines 267-286) -/

/-- Accumulator of the pagination loop: gathered items, the set of seen
(truthy) ids, and `currentPage`. -/
structure RunState where
  items : List Item
  seen : List String
  page : Nat
  deriving Repr, DecidableEq

def MAX_PAGES : Nat := 20

/-- Push one item, deduplicating by truthy id: the body of the inner loops
at source lines 279-283 and 237-241 (both are identical). -/
def dedupPush (acc : List Item × List String) (item : Item) : List Item × List String :=
  match strTruthy item.id with
  | some v => if v ∈ acc.2 then acc else (acc.1 ++ [item], v :: acc.2)
  | none => (acc.1 ++ [item], acc.2)

/-- `currentPage * pageSize < totalAvailable` where `none` is `Infinity`. -/
def ltTotal (n : Nat) (total : Option Nat) : Bool :=
  match total with
  | none => true
  | some t => n < t

/-- The `while` loop at source lines 272-284.  The fuel argument only
bounds the recursion; `MAX_PAGES` fuel is enough because every iteration
requires `page < MAX_PAGES` and increments `page`. -/
def pageLoop (fetch : Nat → Option PageState) (limit pageSize : Nat) (total : Option Nat) :
    RunState → Nat → RunState
  | st, 0 => st
  | st, fuel + 1 =>
    if st.items.length < limit ∧ ltTotal (st.page * pageSize) total ∧ st.page < MAX_PAGES then
      match fetch (st.page + 1) with
      | none => { st with page := st.page + 1 }
      | some ps =>
        match ps.ads with
        | none => { st with page := st.page + 1 }
        | some ads =>
          if ads.length = 0 then { st with page := st.page + 1 }
          else
            pageLoop fetch limit pageSize total
              { items := ((ads.filterMap parseAd).foldl dedupPush (st.items, st.seen)).1,
                seen := ((ads.filterMap parseAd).foldl dedupPush (st.items, st.seen)).2,
                page := st.page + 1 } fuel
    else st

/-- First-page accumulation (source lines 267-269: the first page is parsed
without intra-page dedup; `seenIds` records every truthy id) followed by the
loop. -/
def runPagination (fetch : Nat → Option PageState) (limit pageSize : Nat) (total : Option Nat)
    (firstAds : List (Option RawAd)) : RunState :=
  pageLoop fetch limit pageSize total
    { items := firstAds.filterMap parseAd,
      seen := (firstAds.filterMap parseAd).filterMap (fun it => strTruthy it.id),
      page := 1 } MAX_PAGES

/-! ## Result shaping and enrichment (source lines 288-398) -/

/-- Ascending price key: a missing price reads as `+∞` (`a.price ?? Infinity`). -/
def ascKey (it : Item) : WithTop ℚ :=
  match it.price with
  | some p => (p : WithTop ℚ)
  | none => ⊤

/-- `price_asc` comparator `(a.price ?? Infinity) - (b.price ?? Infinity)`
as a total preorder (the comparator result `NaN`, arising for two missing
prices, is treated as `0` per the ECMAScript sort specification). -/
def priceAscRel (a b : Item) : Prop := ascKey a ≤ ascKey b

instance : DecidableRel priceAscRel := fun a b => by unfold priceAscRel; infer_instance

instance : IsTotal Item priceAscRel := ⟨fun a b => le_total (ascKey a) (ascKey b)⟩

instance : IsTrans Item priceAscRel := ⟨fun _ _ _ => le_trans⟩

/-- Descending price key: a missing price reads as `0` (`b.price ?? 0`). -/
def descKey (it : Item) : ℚ := it.price.getD 0

/-- `price_desc` comparator `(b.price ?? 0) - (a.price ?? 0)` as a total
preorder. -/
def priceDescRel (a b : Item) : Prop := descKey b ≤ descKey a

instance : DecidableRel priceDescRel := fun a b => by unfold priceDescRel; infer_instance

instance : IsTotal Item priceDescRel := ⟨fun a b => (le_total (descKey a) (descKey b)).symm⟩

instance : IsTrans Item priceDescRel := ⟨fun _ _ _ hab hbc => le_trans hbc hab⟩

/-- The sort step (source lines 293-297 and 244-245): a stable sort for the
two price orders, the identity for every other `sort` value.  JS
`Array.prototype.sort` is stable (ES2019), and a stable sort under a
consistent total-preorder comparator has a unique output, so the
structurally recursive stable `insertionSort` models it exactly. -/
def sortStep (sort : Option String) (items : List Item) : List Item :=
  if sort = some "price_asc" then items.insertionSort priceAscRel
  else if sort = some "price_desc" then items.insertionSort priceDescRel
  else items

/-- The strict-filter step of the single-state path (source lines 288-291). -/
def strictStep (strict : Bool) (query : String) (items : List Item) : List Item :=
  if strict then
    if (getQueryTokens query).length > 0 then
      items.filter (fun it => matchesTokens it (getQueryTokens query))
    else items
  else items

/-- Detail enrichment of one item (source lines 301-398): items with a
truthy permalink get the detail oracle's fields assigned over their
enrichment slots (`Object.assign` overwrites `description`, `images`,
`attributes`, `sellerName`); a failed fetch (`none`) leaves the item
unchanged.  Batching by `concurrency` only schedules requests and does not
affect the per-item outcome, so enrichment is a map. -/
def enrichItem (detail : String → Option DetailData) (it : Item) : Item :=
  if it.permalink ≠ "" then
    match detail it.permalink with
    | some d =>
      { it with description := d.description, images := d.images,
                attributes := d.attributes, sellerName := d.sellerName }
    | none => it
  else it

/-! ## The single-state path of `search` (source lines 254-421) -/

/-- The `pageSize` of a fetched first page: `firstState.pageSize || 50`. -/
def singlePageSize (firstState : PageState) : Nat := jsOrNat firstState.pageSize 50

/-- The full pagination run of the single-state branch. -/
def singleRun (fetch : Nat → Option PageState) (o : SearchOptions) (firstState : PageState)
    (firstAds : List (Option RawAd)) : RunState :=
  runPagination fetch o.limit (singlePageSize firstState) firstState.totalOfAds firstAds

/-- `capped` of the single-state branch (source line 286), computed on the
accumulated items before the strict filter and the truncation run. -/
def singleCapped (fetch : Nat → Option PageState) (o : SearchOptions) (firstState : PageState)
    (firstAds : List (Option RawAd)) : Bool :=
  decide (o.limit ≤ (singleRun fetch o firstState firstAds).items.length)
    || (decide (MAX_PAGES ≤ (singleRun fetch o firstState firstAds).page)
        && ltTotal ((singleRun fetch o firstState firstAds).page * singlePageSize firstState)
             firstState.totalOfAds)

/-- Strict filter, sort and truncation of the single-state branch (source
lines 288-299), before enrichment. -/
def singleShaped (fetch : Nat → Option PageState) (query : String) (o : SearchOptions)
    (firstState : PageState) (firstAds : List (Option RawAd)) : List Item :=
  (sortStep o.sort (strictStep o.strict query (singleRun fetch o firstState firstAds).items)).take
    o.limit

/-- The result object of the single-state branch once the first page has
been fetched and extracted. -/
def searchSingleBody (fetch : Nat → Option PageState) (detail : String → Option DetailData)
    (query : String) (o : SearchOptions) (singleState : Option String) (stateList : List String)
    (firstState : PageState) (firstAds : List (Option RawAd)) : SearchResult :=
  let items4 := (singleShaped fetch query o firstState firstAds).map (enrichItem detail)
  { items := items4,
    query := {
      text := query,
      sort := strTruthy o.sort,
      state := singleState,
      states := stateList,
      category := jsOrStr firstState.selectedCategoryCode (strTruthy o.category),
      strict := o.strict,
      url := some (buildUrl query o.sort 1 singleState o.category) },
    pagination := {
      total := jsOrNat firstState.totalOfAds items4.length,
      page := 1,
      pageSize := singlePageSize firstState,
      limit := o.limit,
      maxPages := MAX_PAGES,
      resultsLimit := MAX_PAGES * singlePageSize firstState,
      capped := singleCapped fetch o firstState firstAds } }

/-- The single-state branch of `search`, from the first-page fetch to the
returned result.  Validation has already run in `search`; `singleState` is
`stateList[0] ?? null`. -/
def searchSingleState (fetch : Nat → Option PageState) (detail : String → Option DetailData)
    (query : String) (o : SearchOptions) (singleState : Option String) (stateList : List String) :
    Except SearchError SearchResult :=
  match fetch 1 with
  | none => .error .extraction
  | some firstState =>
    match firstState.ads with
    | none => .error .extraction
    | some firstAds =>
      .ok (searchSingleBody fetch detail query o singleState stateList firstState firstAds)

/-! ## The multi-state merge of `search` (source lines 213-252) -/

/-- The round-robin merge loops at source lines 233-242, threading the
deduplication accumulator through ranks (outer loop) and regions (inner
loop). -/
def mergeRR (stateResults : List (List Item)) : List Item :=
  let maxLen := (stateResults.map List.length).foldl max 0
  ((List.range maxLen).foldl
    (fun acc i =>
      stateResults.foldl
        (fun acc arr =>
          match arr[i]? with
          | some item => dedupPush acc item
          | none => acc)
        acc)
    ([], [])).1

/-- The per-state sub-searches of the multi-state branch (source line 214):
each recursive call carries the whole options bag with `state` replaced by
the single UF and `limit` tripled under strict mode, and always lands in
the single-state branch with a valid state. -/
def multiSettled (fetchFor : Option String → Nat → Option PageState)
    (detail : String → Option DetailData) (query : String) (o : SearchOptions)
    (stateList : List String) : List (Except SearchError SearchResult) :=
  stateList.map (fun s =>
    searchSingleState (fetchFor (some s)) detail query
      { o with limit := if o.strict then o.limit * 3 else o.limit, state := some s }
      (some s) [s])

/-- The fulfilled sub-results, in request order (source lines 222-232). -/
def multiFulfilled (fetchFor : Option String → Nat → Option PageState)
    (detail : String → Option DetailData) (query : String) (o : SearchOptions)
    (stateList : List String) : List SearchResult :=
  (multiSettled fetchFor detail query o stateList).filterMap (fun r =>
    match r with
    | .ok v => some v
    | .error _ => none)

/-- The merged sequence before the strict filter (source lines 233-242). -/
def multiMerged (fetchFor : Option String → Nat → Option PageState)
    (detail : String → Option DetailData) (query : String) (o : SearchOptions)
    (stateList : List String) : List Item :=
  mergeRR ((multiFulfilled fetchFor detail query o stateList).map SearchResult.items)

/-- The merged sequence after the optional strict filter (source line 243). -/
def multiFiltered (fetchFor : Option String → Nat → Option PageState)
    (detail : String → Option DetailData) (query : String) (o : SearchOptions)
    (stateList : List String) : List Item :=
  if o.strict then
    (multiMerged fetchFor detail query o stateList).filter (fun it => matchesQuery it query)
  else multiMerged fetchFor detail query o stateList

/-- Sort and truncation of the multi-state branch (source lines 244-246). -/
def multiShaped (fetchFor : Option String → Nat → Option PageState)
    (detail : String → Option DetailData) (query : String) (o : SearchOptions)
    (stateList : List String) : List Item :=
  (sortStep o.sort (multiFiltered fetchFor detail query o stateList)).take o.limit

/-- The multi-state branch of `search`: run one sub-search per state, keep
the fulfilled ones in request order, merge round-robin with global dedup,
then filter/sort/truncate. -/
def searchMulti (fetchFor : Option String → Nat → Option PageState)
    (detail : String → Option DetailData) (query : String) (o : SearchOptions)
    (stateList : List String) : Except SearchError SearchResult :=
  let fulfilled := multiFulfilled fetchFor detail query o stateList
  let firstOk := fulfilled.head?
  let pageSize := match firstOk with
    | some r => jsOrNat (some r.pagination.pageSize) 50
    | none => 50
  let merged3 := multiShaped fetchFor detail query o stateList
  .ok {
    items := merged3,
    query := {
      text := query,
      sort := strTruthy o.sort,
      state := some (String.intercalate "," stateList),
      states := stateList,
      category := firstOk.bind (fun r => r.query.category),
      strict := o.strict,
      url := firstOk.bind (fun r => r.query.url) },
    pagination := {
      total := (fulfilled.map (fun r => r.pagination.total)).sum,
      page := 1,
      pageSize := pageSize,
      limit := o.limit,
      maxPages := 20,
      resultsLimit := 20 * pageSize,
      capped := decide (o.limit ≤ merged3.length) } }

/-! ## `search` (source lines 195-421) and `searchRaw` (source lines 436-453) -/

/-- The state list: `state.split(",").map(s => s.trim().toLowerCase()).filter(Boolean)`
(the comma split is performed on the character list). -/
def parseStateList (state : Option String) : List String :=
  match state with
  | none => []
  | some st =>
    ((st.toList.splitOn ',').map (fun cs => lowerStr (trimStr (String.mk cs)))).filter
      (fun s => s ≠ "")

/-- Category validation (source lines 198-201 and 439-442). -/
def checkCategory (category : Option String) : Except SearchError Unit :=
  match strTruthy category with
  | some c => if c ∈ CATEGORY_SLUGS then .ok () else .error (.unknownCategory c)
  | none => .ok ()

/-- State validation (source lines 209-211): the first unknown entry throws. -/
def checkStates (stateList : List String) : Except SearchError Unit :=
  match stateList.find? (fun s => ¬ s ∈ VALID_STATES) with
  | some s => .error (.unknownState s)
  | none => .ok ()

/-- `search(query, options)`.  The page oracle is keyed by the state the URL
is built for (`none` when no state filter applies).  The recursive
multi-state call of the source always lands in the single-state branch with
an already-valid state, which `searchMulti` invokes directly. -/
def search (fetchFor : Option String → Nat → Option PageState)
    (detail : String → Option DetailData) (query : String) (o : SearchOptions) :
    Except SearchError SearchResult :=
  match checkCategory o.category with
  | .error e => .error e
  | .ok _ =>
    match checkStates (parseStateList o.state) with
    | .error e => .error e
    | .ok _ =>
      if (parseStateList o.state).length > 1 then
        searchMulti fetchFor detail query o (parseStateList o.state)
      else
        searchSingleState (fetchFor (parseStateList o.state).head?) detail query o
          (parseStateList o.state).head? (parseStateList o.state)

/-- `searchRaw(query, options)`: validate the category only, fetch page 1
for the raw `state` option (unvalidated, passed straight to `buildUrl`) and
return the extracted page state; extraction failure throws. -/
def searchRaw (fetchFor : Option String → Nat → Option PageState)
    (query : String) (o : SearchOptions) : Except SearchError PageState :=
  match checkCategory o.category with
  | .error e => .error e
  | .ok _ =>
    match fetchFor o.state 1 with
    | none => .error .extraction
    | some st => .ok st

/-! ## Dedup invariants

`dedupPush` is the only way items enter an accumulated sequence after the
first page; these predicates and lemmas track the id-distinctness
invariant through it. -/

/-- Two items do not share a truthy id (an item whose `id` is `null`, or the
falsy `""`, clashes with nothing). -/
def IdsDisjoint (a b : Item) : Prop :=
  strTruthy a.id = none ∨ strTruthy b.id = none ∨ strTruthy a.id ≠ strTruthy b.id

instance : DecidableRel IdsDisjoint := fun a b => by unfold IdsDisjoint; infer_instance

/-- No two members of the sequence share a truthy id. -/
def DistinctIds (l : List Item) : Prop := l.Pairwise IdsDisjoint

instance (l : List Item) : Decidable (DistinctIds l) := by
  unfold DistinctIds; infer_instance

/-- Every truthy id of the sequence is recorded in `seen`. -/
def SeenCovers (items : List Item) (seen : List String) : Prop :=
  ∀ it ∈ items, ∀ v, strTruthy it.id = some v → v ∈ seen

/-- The round-robin visiting order of the merge loops (this is exactly the
order the specification describes: rank 0 from each fulfilled region in
request order, then rank 1, …, skipping regions with no item at that rank). -/
def roundRobinByRank (lists : List (List Item)) : List Item :=
  (List.range ((lists.map List.length).foldl max 0)).flatMap
    (fun i => lists.filterMap (fun arr => arr[i]?))

/-! ## Concrete fixtures

Raw ads, pages and oracles used to instantiate the theorems below on
concrete inputs (witnesses and counterexamples). -/

/-- A raw ad with every field absent. -/
def blankAd : RawAd :=
  { listId := none, subject := none, title := none, priceValue := none, price := none,
    oldPrice := none, images := none, properties := none, location := none,
    locationDetails := none, url := none, friendlyUrl := none, date := none,
    origListTime := none, professionalAd := none, olxPay := none, olxDelivery := none,
    imageCount := none, videoCount := none, categoryName := none, category := none,
    listingCategoryId := none, searchCategoryLevelOne := none, isFeatured := none,
    priceReductionBadge := none }

/-- A raw ad with an id, a title, an optional price string and a permalink. -/
def adOf (id : String) (title : String) (priceValue : Option String) : RawAd :=
  { blankAd with listId := some id, subject := some title, priceValue := priceValue,
                 url := some ("https://olx/" ++ id) }

/-- A canonical item carrying only an id, a title and a price (all other
fields as `parseAd` defaults them for such an ad, minus the permalink). -/
def itemOf (id : Option String) (title : String) (price : Option ℚ) : Item :=
  { id := id, title := title, price := price, currency := "BRL", oldPrice := none,
    discountPercent := none, location := none, locationDetails := none,
    dateTimestamp := none, professionalAd := false, thumbnail := none, images := none,
    imageCount := 0, videoCount := 0, permalink := "", category := none, categoryId := none,
    properties := none, olxPay := false, olxDelivery := false, isFeatured := false,
    priceReduction := false, description := none, attributes := none, sellerName := none }

/-- A single page listing the given raw ads. -/
def pageOf (ads : List RawAd) (total : Option Nat) (pageSize : Option Nat) : PageState :=
  { ads := some (ads.map some), totalOfAds := total, pageSize := pageSize,
    selectedCategoryCode := none }

/-- The detail oracle that always fails (items keep their null enrichment
fields). -/
def noDetail : String → Option DetailData := fun _ => none

/-- A page oracle serving a fixed page list (page `n` is entry `n-1`). -/
def pagesOracle (pages : List PageState) : Nat → Option PageState :=
  fun n => pages[n - 1]?

/-- C1 witness page: two ads, distinct ids. -/
def c1page : PageState :=
  pageOf [adOf "1" "Samsung S20" none, adOf "2" "iPhone 13" none] (some 2) (some 50)

def c1ads : List (Option RawAd) := c1page.ads.getD []

/-- C1 witness oracle: one page of two ads. -/
def c1fetchFor : Option String → Nat → Option PageState :=
  fun _ => pagesOracle [c1page]

/-- The result the C1 witness search returns. -/
def c1res : SearchResult :=
  searchSingleBody (c1fetchFor none) noDetail "q" {} none [] c1page c1ads

/-- C2 counterexample oracle: the first page itself contains two ads with
the same `listId`. -/
def c2fetchFor : Option String → Nat → Option PageState :=
  fun _ => pagesOracle [pageOf [adOf "x" "First copy" none, adOf "x" "Second copy" none] (some 2) (some 50)]

/-- The result the C2 counterexample search returns. -/
def c2res : SearchResult :=
  searchSingleBody (c2fetchFor none) noDetail "q" {} none []
    (pageOf [adOf "x" "First copy" none, adOf "x" "Second copy" none] (some 2) (some 50))
    ((pageOf [adOf "x" "First copy" none, adOf "x" "Second copy" none] (some 2) (some 50)).ads.getD [])

/-- C5 witness: region A with three items. -/
def c5A : List Item :=
  [itemOf (some "a1") "A1" none, itemOf (some "a2") "A2" none, itemOf (some "a3") "A3" none]

/-- C5 witness: region B with two items (exhausted after rank 1). -/
def c5B : List Item := [itemOf (some "b1") "B1" none, itemOf (some "b2") "B2" none]

/-- C6: an item without a price. -/
def c6n : Item := itemOf none "No price" none

/-- C6: an item priced `0`. -/
def c6z : Item := itemOf (some "z") "Zero priced" (some 0)

/-- C6 witness: the spec's `[null, 100, 50]` price sequence. -/
def c6h : Item := itemOf (some "h") "High" (some 100)

def c6l : Item := itemOf (some "l") "Low" (some 50)

def c6ex : List Item := [c6n, c6h, c6l]

/-- C8 counterexample ad: price string `R$ 0`, old price `R$ 100`. -/
def c8zeroAd : RawAd :=
  { blankAd with subject := some "Zero priced", priceValue := some "R$ 0",
                 oldPrice := some "R$ 100" }

/-- C8 witness ad: the spec's `3899` / `4999` discount example. -/
def c8ad : RawAd :=
  { blankAd with subject := some "Phone", priceValue := some "R$ 3.899",
                 oldPrice := some "R$ 4.999" }

/-- The item `parseAd` produces for `c8ad`. -/
def c8it : Item :=
  { itemOf none "Phone" (some 3899) with oldPrice := some 4999, discountPercent := some 22 }

/-- C3 counterexample: every page (for every region) carries one fresh ad,
`pageSize = 1`, upstream total 100. -/
def c3page (n : Nat) : PageState :=
  pageOf [adOf ("r" ++ toString n) ("R" ++ toString n) none] (some 100) (some 1)

def c3fetch : Nat → Option PageState := fun n => if n ≤ 20 then some (c3page n) else none

def c3fetchFor : Option String → Nat → Option PageState := fun _ => c3fetch

def c3opts : SearchOptions := { limit := 25, state := some "sp,rj" }

/-- C4 counterexample: pages 1 and 2 carry the same single ad, page 3 a
fresh one. -/
def c4pageA : PageState := pageOf [adOf "a" "First" none] (some 1000) (some 1)

def c4pageB : PageState := pageOf [adOf "b" "Second" none] (some 1000) (some 1)

def c4fetch : Nat → Option PageState := fun n =>
  if n = 1 ∨ n = 2 then some c4pageA else if n = 3 then some c4pageB else none

/-- C4 witness: 50 unique ads on page 1, 10 fresh ones on page 2,
`totalOfAds = 60`, `pageSize = 50`. -/
def c4wAds1 : List (Option RawAd) :=
  (List.range 50).map (fun i => some (adOf ("w" ++ toString i) "Item" none))

def c4wAds2 : List (Option RawAd) :=
  (List.range 10).map (fun i => some (adOf ("x" ++ toString i) "Item" none))

def c4wPage1 : PageState :=
  { ads := some c4wAds1, totalOfAds := some 60, pageSize := some 50,
    selectedCategoryCode := none }

def c4wPage2 : PageState :=
  { ads := some c4wAds2, totalOfAds := some 60, pageSize := some 50,
    selectedCategoryCode := none }

def c4wFetch : Nat → Option PageState := fun n =>
  if n = 1 then some c4wPage1 else if n = 2 then some c4wPage2 else none

/-- C9 counterexample: the C1 oracle searched with `limit = 0`. -/
def c9res : SearchResult :=
  searchSingleBody (c1fetchFor none) noDetail "q" { limit := 0 } none []
    (pageOf [adOf "1" "Samsung S20" none, adOf "2" "iPhone 13" none] (some 2) (some 50))
    ((pageOf [adOf "1" "Samsung S20" none, adOf "2" "iPhone 13" none] (some 2) (some 50)).ads.getD [])

/-- C10: one ad whose title matches the query, one whose title does not but
whose detail page description would. -/
def c10ads : List (Option RawAd) :=
  [some (adOf "s1" "Samsung S20" none), some (adOf "g1" "Generic phone" none)]

def c10page : PageState :=
  { ads := some c10ads, totalOfAds := some 2, pageSize := some 50,
    selectedCategoryCode := none }

def c10fetch : Nat → Option PageState := fun n => if n = 1 then some c10page else none

/-- The detail oracle knows a matching description for the non-matching ad
only. -/
def c10detail : String → Option DetailData := fun url =>
  if url = "https://olx/g1" then
    some { description := some "samsung s20 special offer", images := none,
           attributes := none, sellerName := none }
  else none

def c10opts : SearchOptions := { strict := true }

def c10res : SearchResult :=
  searchSingleBody c10fetch c10detail "samsung" c10opts none [] c10page c10ads

theorem IdsDisjoint.symm {a b : Item} (h : IdsDisjoint a b) : IdsDisjoint b a := by
  rcases h with h | h | h
  · exact Or.inr (Or.inl h)
  · exact Or.inl h
  · exact Or.inr (Or.inr (Ne.symm h))

theorem dedupPush_inv {acc : List Item × List String} {x : Item}
    (h1 : DistinctIds acc.1) (h2 : SeenCovers acc.1 acc.2) :
    DistinctIds (dedupPush acc x).1 ∧ SeenCovers (dedupPush acc x).1 (dedupPush acc x).2 ∧
      ∀ s ∈ acc.2, s ∈ (dedupPush acc x).2 := by
  unfold dedupPush
  rcases hid : strTruthy x.id with _ | v
  · refine ⟨?_, ?_, fun s hs => hs⟩
    · refine List.pairwise_append.2 ⟨h1, List.pairwise_singleton _ _, ?_⟩
      intro a _ b hb
      rw [List.mem_singleton] at hb
      subst hb
      exact Or.inr (Or.inl hid)
    · intro it hit v hv
      rcases List.mem_append.1 hit with h | h
      · exact h2 it h v hv
      · rw [List.mem_singleton] at h
        subst h
        rw [hid] at hv
        exact absurd hv (by simp)
  · by_cases hin : v ∈ acc.2
    · simp only [hin, if_pos]
      exact ⟨h1, h2, fun s hs => hs⟩
    · simp only [hin, if_neg, if_false]
      refine ⟨?_, ?_, fun s hs => List.mem_cons_of_mem _ hs⟩
      · refine List.pairwise_append.2 ⟨h1, List.pairwise_singleton _ _, ?_⟩
        intro a ha b hb
        rw [List.mem_singleton] at hb
        subst hb
        rcases ha' : strTruthy a.id with _ | w
        · exact Or.inl ha'
        · refine Or.inr (Or.inr ?_)
          rw [ha', hid]
          intro hcontr
          obtain rfl : w = v := by injection hcontr
          exact hin (h2 a ha w ha')
      · intro it hit u hu
        rcases List.mem_append.1 hit with h | h
        · exact List.mem_cons_of_mem _ (h2 it h u hu)
        · rw [List.mem_singleton] at h
          subst h
          rw [hid] at hu
          obtain rfl : v = u := by injection hu
          exact List.mem_cons_self _ _

theorem foldl_dedupPush_inv {new : List Item} {acc : List Item × List String}
    (h1 : DistinctIds acc.1) (h2 : SeenCovers acc.1 acc.2) :
    DistinctIds (new.foldl dedupPush acc).1 ∧
      SeenCovers (new.foldl dedupPush acc).1 (new.foldl dedupPush acc).2 := by
  induction new generalizing acc with
  | nil => exact ⟨h1, h2⟩
  | cons x rest ih =>
    obtain ⟨g1, g2, _⟩ := @dedupPush_inv acc x h1 h2
    exact ih g1 g2

/-- When every incoming item is fresh for the accumulator and the incoming
items are mutually id-distinct, the dedup fold is a plain append. -/
theorem foldl_dedupPush_of_fresh {new : List Item} {acc : List Item × List String}
    (hfresh : ∀ x ∈ new, ∀ v, strTruthy x.id = some v → v ∉ acc.2)
    (hdist : new.Pairwise IdsDisjoint) :
    (new.foldl dedupPush acc).1 = acc.1 ++ new := by
  induction new generalizing acc with
  | nil => simp
  | cons x rest ih =>
    rw [List.pairwise_cons] at hdist
    obtain ⟨hx, hrest⟩ := hdist
    have step : dedupPush acc x = (acc.1 ++ [x], match strTruthy x.id with
        | some v => v :: acc.2
        | none => acc.2) := by
      unfold dedupPush
      rcases hid : strTruthy x.id with _ | v
      · rfl
      · have : v ∉ acc.2 := hfresh x (List.mem_cons_self _ _) v hid
        simp [this]
    rw [List.foldl_cons, step]
    have hfresh' : ∀ y ∈ rest, ∀ v, strTruthy y.id = some v →
        v ∉ (match strTruthy x.id with
          | some v => v :: acc.2
          | none => acc.2) := by
      intro y hy v hv
      rcases hid : strTruthy x.id with _ | w
      · exact hfresh y (List.mem_cons_of_mem _ hy) v hv
      · intro hmem
        rcases List.mem_cons.1 hmem with rfl | hmem'
        · rcases hx y hy with h | h | h
          · rw [hid] at h; exact absurd h (by simp)
          · rw [hv] at h; exact absurd h (by simp)
          · rw [hid, hv] at h; exact h rfl
        · exact hfresh y (List.mem_cons_of_mem _ hy) v hv hmem'
    rw [ih hfresh' hrest]
    simp

/-- The dedup fold never drops an item whose id is not truthy. -/
theorem foldl_dedupPush_countP_isNone (new : List Item) (acc : List Item × List String) :
    ((new.foldl dedupPush acc).1.countP (fun x => (strTruthy x.id).isNone))
      = acc.1.countP (fun x => (strTruthy x.id).isNone)
        + new.countP (fun x => (strTruthy x.id).isNone) := by
  induction new generalizing acc with
  | nil => simp
  | cons x rest ih =>
    rw [List.foldl_cons, ih]
    unfold dedupPush
    rcases hid : strTruthy x.id with _ | v
    · simp [List.countP_append, List.countP_cons, hid]
      omega
    · by_cases hin : v ∈ acc.2
      · simp [hin, List.countP_cons, hid]
      · simp [hin, List.countP_append, List.countP_cons, hid]

/-- Any property of all accumulator items and all incoming items holds for
all items after the dedup fold. -/
theorem foldl_dedupPush_forall {Q : Item → Prop} {new : List Item} {acc : List Item × List String}
    (hacc : ∀ x ∈ acc.1, Q x) (hnew : ∀ x ∈ new, Q x) :
    ∀ x ∈ (new.foldl dedupPush acc).1, Q x := by
  induction new generalizing acc with
  | nil => exact hacc
  | cons y rest ih =>
    rw [List.foldl_cons]
    refine ih ?_ (fun x hx => hnew x (List.mem_cons_of_mem _ hx))
    intro x hx
    rcases hid : strTruthy y.id with _ | v <;> simp only [dedupPush, hid] at hx
    · rcases List.mem_append.1 hx with h | h
      · exact hacc x h
      · rw [List.mem_singleton] at h; subst h; exact hnew x (List.mem_cons_self _ _)
    · by_cases hin : v ∈ acc.2
      · rw [if_pos hin] at hx; exact hacc x hx
      · rw [if_neg hin] at hx
        rcases List.mem_append.1 hx with h | h
        · exact hacc x h
        · rw [List.mem_singleton] at h; subst h; exact hnew x (List.mem_cons_self _ _)

/-- Length after the dedup fold is at most accumulator plus input. -/
theorem foldl_dedupPush_length_le (new : List Item) (acc : List Item × List String) :
    (new.foldl dedupPush acc).1.length ≤ acc.1.length + new.length := by
  induction new generalizing acc with
  | nil => simp
  | cons x rest ih =>
    rw [List.foldl_cons]
    refine le_trans (ih _) ?_
    rcases hid : strTruthy x.id with _ | v <;> simp only [dedupPush, hid]
    · simp
      omega
    · by_cases hin : v ∈ acc.2
      · simp [hin]
      · simp [hin]
        omega

/-! ## Pagination-loop lemmas -/

theorem pageLoop_inv {fetch : Nat → Option PageState} {limit pageSize : Nat} {total : Option Nat}
    {st : RunState} {fuel : Nat}
    (h1 : DistinctIds st.items) (h2 : SeenCovers st.items st.seen) :
    DistinctIds (pageLoop fetch limit pageSize total st fuel).items ∧
      SeenCovers (pageLoop fetch limit pageSize total st fuel).items
        (pageLoop fetch limit pageSize total st fuel).seen := by
  induction fuel generalizing st with
  | zero => exact ⟨h1, h2⟩
  | succ fuel ih =>
    rw [pageLoop]
    split
    · split
      · exact ⟨h1, h2⟩
      · split
        · exact ⟨h1, h2⟩
        · split
          · exact ⟨h1, h2⟩
          · exact ih (foldl_dedupPush_inv h1 h2).1 (foldl_dedupPush_inv h1 h2).2
    · exact ⟨h1, h2⟩

theorem pageLoop_forall {fetch : Nat → Option PageState} {limit pageSize : Nat}
    {total : Option Nat} {st : RunState} {fuel : Nat} {Q : Item → Prop}
    (h0 : ∀ x ∈ st.items, Q x) (hparse : ∀ raw it, parseAd raw = some it → Q it) :
    ∀ x ∈ (pageLoop fetch limit pageSize total st fuel).items, Q x := by
  induction fuel generalizing st with
  | zero => exact h0
  | succ fuel ih =>
    rw [pageLoop]
    split
    · split
      · exact h0
      · split
        · exact h0
        · split
          · exact h0
          · refine ih (foldl_dedupPush_forall h0 ?_)
            intro x hx
            obtain ⟨raw, _, hr⟩ := List.mem_filterMap.1 hx
            exact hparse raw x hr
    · exact h0

/-- If the loop guard fails, the loop stops at once. -/
theorem pageLoop_stop {fetch : Nat → Option PageState} {limit pageSize : Nat}
    {total : Option Nat} {st : RunState} {fuel : Nat}
    (h : ¬ (st.items.length < limit ∧ ltTotal (st.page * pageSize) total = true ∧
      st.page < MAX_PAGES)) :
    pageLoop fetch limit pageSize total st fuel = st := by
  cases fuel
  · rfl
  · rw [pageLoop, if_neg h]

/-- If the loop guard holds and the next page has records, the loop
accumulates them and continues; if the fetched page fails or is empty, the
loop stops after the fetch with the page counter advanced. -/
theorem pageLoop_go {fetch : Nat → Option PageState} {limit pageSize : Nat}
    {total : Option Nat} {st : RunState} {fuel : Nat}
    (h : st.items.length < limit ∧ ltTotal (st.page * pageSize) total = true ∧
      st.page < MAX_PAGES) :
    pageLoop fetch limit pageSize total st (fuel + 1) =
      match fetch (st.page + 1) with
      | none => { st with page := st.page + 1 }
      | some ps =>
        match ps.ads with
        | none => { st with page := st.page + 1 }
        | some ads =>
          if ads.length = 0 then { st with page := st.page + 1 }
          else
            pageLoop fetch limit pageSize total
              { items := ((ads.filterMap parseAd).foldl dedupPush (st.items, st.seen)).1,
                seen := ((ads.filterMap parseAd).foldl dedupPush (st.items, st.seen)).2,
                page := st.page + 1 } fuel := by
  rw [pageLoop, if_pos h]

/-! ## Merge-loop restructuring -/

theorem foldl_flatMap_eq {α β γ : Type} (g : β → List α) (f : γ → α → γ)
    (l : List β) (a : γ) :
    (l.flatMap g).foldl f a = l.foldl (fun acc x => (g x).foldl f acc) a := by
  induction l generalizing a with
  | nil => rfl
  | cons x rest ih => rw [List.flatMap_cons, List.foldl_append, List.foldl_cons, ih]

theorem foldl_rank_eq (lists : List (List Item)) (i : Nat) (acc : List Item × List String) :
    lists.foldl
        (fun acc arr =>
          match arr[i]? with
          | some item => dedupPush acc item
          | none => acc)
        acc
      = (lists.filterMap (fun arr => arr[i]?)).foldl dedupPush acc := by
  induction lists generalizing acc with
  | nil => rfl
  | cons arr rest ih =>
    rw [List.foldl_cons, List.filterMap_cons]
    rcases arr[i]? with _ | item
    · exact ih acc
    · rw [List.foldl_cons]
      exact ih _

/-- Every item `parseAd` produces has a `null` description (enrichment has
not run yet). -/
theorem parseAd_description {raw : Option RawAd} {it : Item}
    (h : parseAd raw = some it) : it.description = none := by
  rcases raw with _ | ad
  · exact absurd h (by simp [parseAd])
  · simp only [parseAd] at h
    split at h
    · exact absurd h (by simp)
    · cases h
      rfl

/-- Enrichment never changes an item's id. -/
theorem enrichItem_id (detail : String → Option DetailData) (it : Item) :
    (enrichItem detail it).id = it.id := by
  unfold enrichItem
  split
  · split <;> rfl
  · rfl

/-- The strict filter step keeps a subsequence of its input. -/
theorem strictStep_sublist (strict : Bool) (query : String) (items : List Item) :
    (strictStep strict query items).Sublist items := by
  unfold strictStep
  split
  · split
    · exact List.filter_sublist _
    · exact List.Sublist.refl _
  · exact List.Sublist.refl _

/-- The sort step permutes its input. -/
theorem sortStep_perm (sort : Option String) (items : List Item) :
    (sortStep sort items).Perm items := by
  unfold sortStep
  split
  · exact List.perm_insertionSort _ _
  · split
    · exact List.perm_insertionSort _ _
    · exact List.Perm.refl _

theorem DistinctIds.of_sublist {l₁ l₂ : List Item} (h : l₁.Sublist l₂)
    (d : DistinctIds l₂) : DistinctIds l₁ :=
  List.Pairwise.sublist h d

theorem DistinctIds.of_perm {l₁ l₂ : List Item} (h : l₁.Perm l₂)
    (d : DistinctIds l₁) : DistinctIds l₂ :=
  ((h.pairwise_iff fun hab => hab.symm).1) d

theorem DistinctIds.map_enrich {l : List Item} (detail : String → Option DetailData)
    (d : DistinctIds l) : DistinctIds (l.map (enrichItem detail)) := by
  refine List.pairwise_map.2 (List.Pairwise.imp ?_ d)
  intro a b hab
  unfold IdsDisjoint at hab ⊢
  rw [enrichItem_id, enrichItem_id]
  exact hab

/-- Id distinctness survives the whole shaping stage (strict filter, sort,
truncation, enrichment). -/
theorem DistinctIds.shaped {items : List Item} (strict : Bool) (query : String)
    (sort : Option String) (limit : Nat) (detail : String → Option DetailData)
    (d : DistinctIds items) :
    DistinctIds ((((sortStep sort (strictStep strict query items)).take limit).map
      (enrichItem detail))) := by
  have d1 : DistinctIds (strictStep strict query items) :=
    d.of_sublist (strictStep_sublist strict query items)
  have d2 : DistinctIds (sortStep sort (strictStep strict query items)) :=
    d1.of_perm (sortStep_perm sort _).symm
  have d3 : DistinctIds ((sortStep sort (strictStep strict query items)).take limit) :=
    d2.of_sublist (List.take_sublist _ _)
  exact d3.map_enrich detail

/-- `searchSingleState` succeeds exactly when the first page extracts with
an `ads` array, and then returns `searchSingleBody`. -/
theorem searchSingleState_ok_cases {fetch : Nat → Option PageState}
    {detail : String → Option DetailData} {query : String} {o : SearchOptions}
    {singleState : Option String} {stateList : List String} {r : SearchResult}
    (h : searchSingleState fetch detail query o singleState stateList = .ok r) :
    ∃ firstState firstAds, fetch 1 = some firstState ∧ firstState.ads = some firstAds ∧
      r = searchSingleBody fetch detail query o singleState stateList firstState firstAds := by
  unfold searchSingleState at h
  split at h
  next => exact absurd h (by simp)
  next firstState hf =>
    split at h
    next => exact absurd h (by simp)
    next firstAds hads =>
      exact ⟨firstState, firstAds, hf, hads, (Except.ok.inj h).symm⟩

/-- The double merge loop is the dedup fold over the round-robin order. -/
theorem mergeRR_eq_foldl (lists : List (List Item)) :
    mergeRR lists = ((roundRobinByRank lists).foldl dedupPush ([], [])).1 := by
  unfold mergeRR roundRobinByRank
  rw [foldl_flatMap_eq]
  have hfun :
      (fun (acc : List Item × List String) (i : Nat) =>
        lists.foldl
          (fun acc arr =>
            match arr[i]? with
            | some item => dedupPush acc item
            | none => acc)
          acc)
      = (fun (acc : List Item × List String) (i : Nat) =>
          (lists.filterMap (fun arr => arr[i]?)).foldl dedupPush acc) := by
    funext acc i
    exact foldl_rank_eq lists i acc
  rw [hfun]

/-! ## Inversion lemmas for `search` and `searchMulti` -/

theorem searchMulti_items {fetchFor : Option String → Nat → Option PageState}
    {detail : String → Option DetailData} {query : String} {o : SearchOptions}
    {stateList : List String} {r : SearchResult}
    (h : searchMulti fetchFor detail query o stateList = .ok r) :
    r.items = multiShaped fetchFor detail query o stateList := by
  simp only [searchMulti] at h
  obtain rfl := Except.ok.inj h
  rfl

theorem searchMulti_capped {fetchFor : Option String → Nat → Option PageState}
    {detail : String → Option DetailData} {query : String} {o : SearchOptions}
    {stateList : List String} {r : SearchResult}
    (h : searchMulti fetchFor detail query o stateList = .ok r) :
    r.pagination.capped
      = decide (o.limit ≤ (multiShaped fetchFor detail query o stateList).length) := by
  simp only [searchMulti] at h
  obtain rfl := Except.ok.inj h
  rfl

/-- A completed `search` either took the multi-state branch (more than one
requested state) or the single-state branch. -/
theorem search_ok_cases {fetchFor : Option String → Nat → Option PageState}
    {detail : String → Option DetailData} {query : String} {o : SearchOptions}
    {r : SearchResult} (h : search fetchFor detail query o = .ok r) :
    (1 < (parseStateList o.state).length ∧
      searchMulti fetchFor detail query o (parseStateList o.state) = .ok r)
    ∨ ((parseStateList o.state).length ≤ 1 ∧
      searchSingleState (fetchFor (parseStateList o.state).head?) detail query o
        (parseStateList o.state).head? (parseStateList o.state) = .ok r) := by
  unfold search at h
  split at h
  next => exact absurd h (by simp)
  next =>
    split at h
    next => exact absurd h (by simp)
    next =>
      split at h
      next hgt => exact Or.inl ⟨hgt, h⟩
      next hle => exact Or.inr ⟨Nat.le_of_not_lt hle, h⟩

/-! ## Distinctness of accumulated and merged sequences -/

/-- The merged multi-state sequence is always id-distinct. -/
theorem mergeRR_distinct (lists : List (List Item)) : DistinctIds (mergeRR lists) := by
  rw [mergeRR_eq_foldl]
  exact (@foldl_dedupPush_inv (roundRobinByRank lists) ([], [])
    List.Pairwise.nil (by intro it hit; cases hit)).1

/-- The single-state pagination run is id-distinct provided the first page
parses to an id-distinct batch (later pages are always deduplicated against
everything already seen). -/
theorem runPagination_distinct {fetch : Nat → Option PageState} {limit pageSize : Nat}
    {total : Option Nat} {firstAds : List (Option RawAd)}
    (h : DistinctIds (firstAds.filterMap parseAd)) :
    DistinctIds (runPagination fetch limit pageSize total firstAds).items := by
  unfold runPagination
  refine (pageLoop_inv h ?_).1
  intro it hit v hv
  exact List.mem_filterMap.2 ⟨it, hit, hv⟩

/-- Id distinctness of the multi-state shaped output, unconditionally. -/
theorem multiShaped_distinct (fetchFor : Option String → Nat → Option PageState)
    (detail : String → Option DetailData) (query : String) (o : SearchOptions)
    (stateList : List String) :
    DistinctIds (multiShaped fetchFor detail query o stateList) := by
  unfold multiShaped multiFiltered
  have hm : DistinctIds (multiMerged fetchFor detail query o stateList) :=
    mergeRR_distinct _
  have h1 : DistinctIds (if o.strict then
      (multiMerged fetchFor detail query o stateList).filter (fun it => matchesQuery it query)
    else multiMerged fetchFor detail query o stateList) := by
    split
    · exact hm.of_sublist (List.filter_sublist _)
    · exact hm
  exact (h1.of_perm (sortStep_perm o.sort _).symm).of_sublist (List.take_sublist _ _)

/-! ## Claim theorems -/

/-- C1: For every completed search (single-region or multi-region), the
returned result's items sequence has length at most the requested limit:
both branches of `search` truncate with `take limit` (`slice(0, limit)`)
before returning, and enrichment is a map. -/
theorem C1_items_length_le_limit (fetchFor : Option String → Nat → Option PageState)
    (detail : String → Option DetailData) (query : String) (o : SearchOptions)
    (r : SearchResult) (h : search fetchFor detail query o = .ok r) :
    r.items.length ≤ o.limit := by
  rcases search_ok_cases h with ⟨_, hm⟩ | ⟨_, hs⟩
  · rw [searchMulti_items hm]
    unfold multiShaped
    exact (List.length_take _ _).le.trans (Nat.min_le_left _ _)
  · obtain ⟨fs, ads, _, _, rfl⟩ := searchSingleState_ok_cases hs
    show ((singleShaped _ query o fs ads).map (enrichItem detail)).length ≤ o.limit
    rw [List.length_map]
    unfold singleShaped
    exact (List.length_take _ _).le.trans (Nat.min_le_left _ _)

/-- Witness for C1 at a concrete two-ad search with the default limit 20. -/
theorem C1_items_length_le_limit_witness :
    search c1fetchFor noDetail "q" {} = .ok c1res ∧ c1res.items.length ≤ 20 :=
  ⟨by rfl, C1_items_length_le_limit c1fetchFor noDetail "q" {} c1res (by rfl)⟩

/-- C2 counterexample: the claim asserts that no two returned items ever
share a non-null id, but the first fetched page of a single-region search
is accumulated without intra-page dedup (source line 268 parses and keeps
every ad; `seenIds` only guards later pages), so a first page that itself
contains two ads with `listId = "x"` yields a result carrying both. -/
theorem C2_counterexample :
    search c2fetchFor noDetail "q" {} = .ok c2res ∧
    c2res.items.map Item.id = [some "x", some "x"] ∧
    ¬ DistinctIds c2res.items :=
  ⟨by rfl, by decide, by decide⟩

/-- C2 (amended): no two items ever share a truthy id provided the first
fetched page of the single-region branch parses to an id-distinct batch;
the multi-region merged result is always id-distinct (every item passes
through the globally deduplicating merge); and the merge never drops an
item whose id is null (their count is exactly that of the round-robin visit
order). -/
theorem C2_dedup_amended :
    (∀ fetchFor detail query o r,
        search fetchFor detail query o = .ok r →
        1 < (parseStateList o.state).length →
        DistinctIds r.items)
    ∧ (∀ fetchFor detail query o r fs ads,
        search fetchFor detail query o = .ok r →
        (parseStateList o.state).length ≤ 1 →
        fetchFor (parseStateList o.state).head? 1 = some fs →
        fs.ads = some ads →
        DistinctIds (ads.filterMap parseAd) →
        DistinctIds r.items)
    ∧ (∀ lists,
        (mergeRR lists).countP (fun x => (strTruthy x.id).isNone)
          = (roundRobinByRank lists).countP (fun x => (strTruthy x.id).isNone)) := by
  refine ⟨?_, ?_, ?_⟩
  · intro fetchFor detail query o r h hlen
    rcases search_ok_cases h with ⟨_, hm⟩ | ⟨hle, _⟩
    · rw [searchMulti_items hm]
      exact multiShaped_distinct _ _ _ _ _
    · omega
  · intro fetchFor detail query o r fs ads h hlen hf hads hdist
    rcases search_ok_cases h with ⟨hgt, _⟩ | ⟨_, hs⟩
    · omega
    · obtain ⟨fs2, ads2, hf2, hads2, rfl⟩ := searchSingleState_ok_cases hs
      have hdist2 : DistinctIds (ads2.filterMap parseAd) := by
        obtain rfl : ads2 = ads := by
          have hfs : fs2 = fs := Option.some.inj (hf2.symm.trans hf)
          rw [hfs] at hads2
          exact Option.some.inj (hads2.symm.trans hads)
        exact hdist
      show DistinctIds ((singleShaped _ query o fs2 ads2).map (enrichItem detail))
      unfold singleShaped singleRun
      exact (runPagination_distinct hdist2).shaped o.strict query o.sort o.limit detail
  · intro lists
    rw [mergeRR_eq_foldl, foldl_dedupPush_countP_isNone]
    simp

/-- Witness for the amended C2 at the concrete two-ad search (distinct
first-page ids). -/
theorem C2_dedup_amended_witness :
    search c1fetchFor noDetail "q" {} = .ok c1res ∧ DistinctIds c1res.items :=
  ⟨by rfl,
   C2_dedup_amended.2.1 c1fetchFor noDetail "q" {} c1res
     (pageOf [adOf "1" "Samsung S20" none, adOf "2" "iPhone 13" none] (some 2) (some 50))
     [some (adOf "1" "Samsung S20" none), some (adOf "2" "iPhone 13" none)]
     (by rfl) (by decide) (by rfl) (by rfl) (by decide)⟩

/-- C5: When no two items of the per-region sequences share a truthy id,
the merge loop produces exactly the round-robin-by-rank interleaving: index
0 from each fulfilled region in request order, then index 1, and so on,
skipping regions with no item remaining at that rank. -/
theorem C5_round_robin_merge (lists : List (List Item))
    (h : (roundRobinByRank lists).Pairwise IdsDisjoint) :
    mergeRR lists = roundRobinByRank lists := by
  rw [mergeRR_eq_foldl]
  rw [@foldl_dedupPush_of_fresh (roundRobinByRank lists) ([], []) ?_ h]
  · rfl
  · intro x _ v _
    exact List.not_mem_nil v

/-- Witness for C5 at the spec's example: A = [a1, a2, a3], B = [b1, b2]
merge to [a1, b1, a2, b2, a3]. -/
theorem C5_round_robin_merge_witness :
    (roundRobinByRank [c5A, c5B]).Pairwise IdsDisjoint ∧
    mergeRR [c5A, c5B]
      = [itemOf (some "a1") "A1" none, itemOf (some "b1") "B1" none,
         itemOf (some "a2") "A2" none, itemOf (some "b2") "B2" none,
         itemOf (some "a3") "A3" none] :=
  ⟨by decide, (C5_round_robin_merge [c5A, c5B] (by decide)).trans (by decide)⟩

/-- C6 counterexample: the claim asserts priceless items are placed last
under both price orders, but under `price_desc` a missing price compares as
`0`, tying with a zero-priced item: the stable sort keeps the priceless
item ahead of a priced one. -/
theorem C6_counterexample :
    sortStep (some "price_desc") [c6n, c6z] = [c6n, c6z] ∧
    c6n.price = none ∧ c6z.price = some 0 :=
  ⟨by decide, by decide, by decide⟩

/-- C6 (amended): `price_asc` sorts by price with missing prices reading as
`+∞`, so priceless items land strictly after every priced item; `price_desc`
sorts by price with missing prices reading as `0`, so priceless items land
after every positively-priced item (tying with zero-priced ones in stable
order); every other sort value is the identity; the sort permutes and
truncation to the limit happens after it in both branches. -/
theorem C6_sort_amended :
    (∀ items : List Item,
        (sortStep (some "price_asc") items).Pairwise (fun a b => ascKey a ≤ ascKey b))
    ∧ (∀ items : List Item,
        (sortStep (some "price_asc") items).Pairwise
          (fun a b => a.price = none → b.price = none))
    ∧ (∀ items : List Item,
        (sortStep (some "price_desc") items).Pairwise (fun a b => descKey b ≤ descKey a))
    ∧ (∀ items : List Item,
        (sortStep (some "price_desc") items).Pairwise
          (fun a b => ∀ p, b.price = some p → 0 < p → a.price ≠ none))
    ∧ (∀ (s : Option String) (items : List Item),
        s ≠ some "price_asc" → s ≠ some "price_desc" → sortStep s items = items)
    ∧ (∀ (s : Option String) (items : List Item), (sortStep s items).Perm items)
    ∧ (∀ fetch query o fs ads, singleShaped fetch query o fs ads
        = (sortStep o.sort (strictStep o.strict query (singleRun fetch o fs ads).items)).take
            o.limit)
    ∧ (∀ fetchFor detail query o sl, multiShaped fetchFor detail query o sl
        = (sortStep o.sort (multiFiltered fetchFor detail query o sl)).take o.limit) := by
  have ascSorted : ∀ items : List Item,
      (sortStep (some "price_asc") items).Pairwise (fun a b => ascKey a ≤ ascKey b) := by
    intro items
    have h := List.sorted_insertionSort priceAscRel items
    have heq : sortStep (some "price_asc") items = items.insertionSort priceAscRel := by
      unfold sortStep
      simp
    rw [heq]
    exact h.imp (fun hab => hab)
  have descSorted : ∀ items : List Item,
      (sortStep (some "price_desc") items).Pairwise (fun a b => descKey b ≤ descKey a) := by
    intro items
    have h := List.sorted_insertionSort priceDescRel items
    have heq : sortStep (some "price_desc") items = items.insertionSort priceDescRel := by
      unfold sortStep
      simp
    rw [heq]
    exact h.imp (fun hab => hab)
  refine ⟨ascSorted, ?_, descSorted, ?_, ?_, sortStep_perm, fun _ _ _ _ _ => rfl,
    fun _ _ _ _ _ => rfl⟩
  · intro items
    refine (ascSorted items).imp ?_
    intro a b hab ha
    have htop : ascKey a = ⊤ := by
      unfold ascKey
      rw [ha]
    rw [htop] at hab
    have : ascKey b = ⊤ := top_le_iff.1 hab
    unfold ascKey at this
    rcases hb : b.price with _ | p
    · rfl
    · rw [hb] at this
      exact absurd this (WithTop.coe_ne_top)
  · intro items
    refine (descSorted items).imp ?_
    intro a b hab p hbp hp ha
    have hb : descKey b = p := by
      unfold descKey
      rw [hbp]
      rfl
    have ha0 : descKey a = 0 := by
      unfold descKey
      rw [ha]
      rfl
    rw [hb, ha0] at hab
    exact absurd (lt_of_lt_of_le hp hab) (lt_irrefl 0)
  · intro s items h1 h2
    unfold sortStep
    rw [if_neg h1, if_neg h2]

/-- Witness for the amended C6 at the spec's `[null, 100, 50]` example and
at the no-op branch for `date`. -/
theorem C6_sort_amended_witness :
    sortStep (some "date") c6ex = c6ex ∧
    sortStep (some "price_asc") c6ex = [c6l, c6h, c6n] ∧
    sortStep (some "price_desc") c6ex = [c6h, c6l, c6n] :=
  ⟨C6_sort_amended.2.2.2.2.1 (some "date") c6ex (by decide) (by decide),
   by decide, by decide⟩

/-- C7: Strict matching.  A token survives tokenization iff it is a
whitespace-separated piece of the normalized query, longer than one
character and not a stop word; an item matches iff every surviving token is
a substring of the corpus (normalized title, description, property values);
the empty surviving-token list matches everything; and for a non-empty
token list the strict filter keeps exactly the matching items. -/
theorem C7_strict_matching :
    (∀ (q : String) (t : List Char), t ∈ getQueryTokens q ↔
        (t ∈ (normalize q).splitOn ' ' ∧ 1 < t.length ∧ t ∉ stopWordChars))
    ∧ (∀ (it : Item) (q : String), matchesQuery it q = true ↔
        ∀ t ∈ getQueryTokens q, hasSub (corpusOf it) t = true)
    ∧ (∀ (it : Item) (q : String), getQueryTokens q = [] → matchesQuery it q = true)
    ∧ (∀ (q : String) (items : List Item) (x : Item), getQueryTokens q ≠ [] →
        (x ∈ strictStep true q items ↔
          x ∈ items ∧ matchesTokens x (getQueryTokens q) = true)) := by
  refine ⟨?_, ?_, ?_, ?_⟩
  · intro q t
    unfold getQueryTokens
    rw [List.mem_filter]
    simp
  · intro it q
    unfold matchesQuery matchesTokens
    rcases h : getQueryTokens q with _ | ⟨t, ts⟩
    · simp
    · rw [if_neg (by simp)]
      rw [List.all_eq_true]
  · intro it q h
    unfold matchesQuery matchesTokens
    rw [h]
    simp
  · intro q items x h
    unfold strictStep
    rw [if_pos rfl, if_pos (by
      rcases hq : getQueryTokens q with _ | _
      · exact absurd hq h
      · simp)]
    rw [List.mem_filter]

/-- Witness for C7 at the spec's `"samsung s20"` examples and an
all-stop-words query. -/
theorem C7_strict_matching_witness :
    matchesQuery (itemOf none "Celular Samsung Galaxy S20" none) "samsung s20" = true
    ∧ matchesQuery (itemOf none "iPhone 13" none) "samsung s20" = false
    ∧ getQueryTokens "de o a" = []
    ∧ matchesQuery (itemOf none "iPhone 13" none) "de o a" = true :=
  ⟨by decide, by decide, by decide,
   C7_strict_matching.2.2.1 (itemOf none "iPhone 13" none) "de o a" (by decide)⟩

/-- Every price `parsePrice` can produce is nonnegative (the cleaned string
contains no sign). -/
theorem parseFloatPrefix_nonneg {cs : List Char} {q : ℚ}
    (h : parseFloatPrefix cs = some q) : 0 ≤ q := by
  simp only [parseFloatPrefix] at h
  split at h
  · split at h
    · exact absurd h (by simp)
    · obtain rfl := Option.some.inj h
      positivity
  · split at h
    · exact absurd h (by simp)
    · obtain rfl := Option.some.inj h
      positivity

theorem parsePrice_nonneg {s : Option String} {q : ℚ} (h : parsePrice s = some q) :
    0 ≤ q := by
  simp only [parsePrice] at h
  split at h
  · exact absurd h (by simp)
  · exact parseFloatPrefix_nonneg h

/-- C8 counterexample: the claim asserts the discount is computed whenever
both prices parse with `oldPrice > price`, but a parsed price of `0` is
falsy in the guard `oldPrice && price && oldPrice > price`, so a `R$ 0`
price with `R$ 100` old price yields a null `discountPercent` instead of
`100`. -/
theorem C8_counterexample :
    parsePrice (some "R$ 0") = some 0 ∧ parsePrice (some "R$ 100") = some 100 ∧
    (parseAd (some c8zeroAd)).map Item.discountPercent = some none :=
  ⟨by decide, by decide, by decide⟩

/-- C8 (amended): for every raw ad whose price and old price both parse to
nonzero values with `oldPrice > price`, normalization sets
`discountPercent = round((oldPrice - price) / oldPrice * 100)` (JS
`Math.round` is `⌊q + 1/2⌋`); the discount is null whenever either value is
absent, parses to `0`, or `price ≥ oldPrice`. -/
theorem C8_discount_amended (ad : RawAd) (it : Item) (h : parseAd (some ad) = some it) :
    (∀ p o : ℚ, parsePrice (jsOrStr ad.priceValue ad.price) = some p →
      parsePrice ad.oldPrice = some o → p ≠ 0 → p < o →
      it.discountPercent = some (jsRound ((o - p) / o * 100)))
    ∧ ((parsePrice (jsOrStr ad.priceValue ad.price) = none ∨
        parsePrice (jsOrStr ad.priceValue ad.price) = some 0 ∨
        parsePrice ad.oldPrice = none ∨
        parsePrice ad.oldPrice = some 0 ∨
        (∀ p o : ℚ, parsePrice (jsOrStr ad.priceValue ad.price) = some p →
          parsePrice ad.oldPrice = some o → o ≤ p)) →
      it.discountPercent = none) := by
  simp only [parseAd] at h
  split at h
  · exact absurd h (by simp)
  · obtain rfl := Option.some.inj h
    constructor
    · intro p o hp ho hp0 hlt
      show discountOf (parsePrice ad.oldPrice) (parsePrice (jsOrStr ad.priceValue ad.price))
        = some (jsRound ((o - p) / o * 100))
      have hop : 0 ≤ p := parsePrice_nonneg hp
      have ho0 : o ≠ 0 := by
        intro hc
        rw [hc] at hlt
        exact absurd (lt_of_le_of_lt hop hlt) (lt_irrefl 0)
      rw [hp, ho]
      simp only [discountOf, ratTruthy, if_neg ho0, if_neg hp0]
      rw [if_pos hlt]
    · intro hcases
      show discountOf (parsePrice ad.oldPrice) (parsePrice (jsOrStr ad.priceValue ad.price))
        = none
      rcases hp : parsePrice (jsOrStr ad.priceValue ad.price) with _ | p <;>
        rcases ho : parsePrice ad.oldPrice with _ | o
      · rfl
      · by_cases hoz : o = 0 <;> simp [discountOf, ratTruthy, hoz]
      · rfl
      · by_cases hpz : p = 0
        · subst hpz
          by_cases hoz : o = 0 <;> simp [discountOf, ratTruthy, hoz]
        · by_cases hoz : o = 0
          · subst hoz
            simp [discountOf, ratTruthy]
          · simp only [discountOf, ratTruthy, if_neg hpz, if_neg hoz]
            rcases hcases with hc | hc | hc | hc | hc
            · exact absurd hp (by rw [hc]; simp)
            · rw [hp] at hc
              exact absurd (Option.some.inj hc) hpz
            · exact absurd ho (by rw [hc]; simp)
            · rw [ho] at hc
              exact absurd (Option.some.inj hc) hoz
            · exact if_neg (not_lt.2 (hc p o hp ho))

/-- Witness for the amended C8 at the spec's `3899` / `4999` example. -/
theorem C8_discount_amended_witness :
    parseAd (some c8ad) = some c8it ∧ parsePrice (some "R$ 3.899") = some 3899 ∧
    parsePrice (some "R$ 4.999") = some 4999 ∧ c8it.discountPercent = some 22 :=
  ⟨by decide, by decide, by decide, by
    have h := (C8_discount_amended c8ad c8it (by decide)).1 3899 4999
      (by decide) (by decide) (by decide) (by decide)
    rw [h]
    decide⟩

/-- The `capped` flag of the single-state result characterized by the
pagination run: the accumulated pre-filter item count reached the limit, or
the page budget was exhausted with the next page index still below the
upstream total. -/
theorem searchSingleBody_capped_iff (fetch : Nat → Option PageState)
    (detail : String → Option DetailData) (query : String) (o : SearchOptions)
    (st : Option String) (sl : List String) (fs : PageState) (ads : List (Option RawAd)) :
    (searchSingleBody fetch detail query o st sl fs ads).pagination.capped = true ↔
      (o.limit ≤ (singleRun fetch o fs ads).items.length ∨
        (MAX_PAGES ≤ (singleRun fetch o fs ads).page ∧
          ltTotal ((singleRun fetch o fs ads).page * singlePageSize fs) fs.totalOfAds
            = true)) := by
  show singleCapped fetch o fs ads = true ↔ _
  unfold singleCapped
  simp [Bool.or_eq_true, Bool.and_eq_true, decide_eq_true_eq]

/-- C3 counterexample: two regions, one fresh one-ad page per request,
`pageSize = 1`, upstream total 100 per region, limit 25.  Each region
exhausts the 20-page budget with more upstream remaining (its run stops at
page 20 with `20 * 1 < 100`) and contributes 20 items; the regions carry
the same ids, so the merge holds 20 items, below the limit — yet the
multi-region result reports `capped = false`, because the multi-state
branch computes `capped` only from `merged.length >= limit` and discards
the sub-searches' budget state. -/
theorem C3_counterexample :
    (search c3fetchFor noDetail "q" c3opts).map (fun r => r.pagination.capped) = .ok false ∧
    (runPagination c3fetch 25 1 (some 100) ((c3page 1).ads.getD [])).page = 20 ∧
    ltTotal ((runPagination c3fetch 25 1 (some 100) ((c3page 1).ads.getD [])).page * 1)
      (some 100) = true ∧
    (runPagination c3fetch 25 1 (some 100) ((c3page 1).ads.getD [])).items.length = 20 ∧
    (search c3fetchFor noDetail "q" c3opts).map (fun r => r.items.length) = .ok 20 :=
  ⟨by rfl, by decide, by decide, by decide, by rfl⟩

/-- C3 (amended): in the single-region branch, `capped = true` iff the
accumulated (pre-filter) item count reached the limit or the 20-page budget
was exhausted with the next page index still below the upstream-reported
total; in the multi-region branch, `capped = true` iff the merged and
filtered item count reached the limit — region page-budget exhaustion is
not reflected there. -/
theorem C3_capped_amended :
    (∀ fetch detail query o st sl fs ads r,
      searchSingleState fetch detail query o st sl = .ok r →
      fetch 1 = some fs → fs.ads = some ads →
      (r.pagination.capped = true ↔
        (o.limit ≤ (singleRun fetch o fs ads).items.length ∨
          (MAX_PAGES ≤ (singleRun fetch o fs ads).page ∧
            ltTotal ((singleRun fetch o fs ads).page * singlePageSize fs) fs.totalOfAds
              = true))))
    ∧ (∀ fetchFor detail query o sl r,
      searchMulti fetchFor detail query o sl = .ok r →
      (r.pagination.capped = true ↔
        o.limit ≤ (multiFiltered fetchFor detail query o sl).length)) := by
  constructor
  · intro fetch detail query o st sl fs ads r h hf hads
    obtain ⟨fs2, ads2, hf2, hads2, rfl⟩ := searchSingleState_ok_cases h
    have hfs : fs2 = fs := Option.some.inj (hf2.symm.trans hf)
    have hads' : ads2 = ads := by
      rw [hfs] at hads2
      exact Option.some.inj (hads2.symm.trans hads)
    rw [← hfs, ← hads']
    exact searchSingleBody_capped_iff fetch detail query o st sl fs2 ads2
  · intro fetchFor detail query o sl r h
    rw [searchMulti_capped h]
    have hlen : (multiShaped fetchFor detail query o sl).length
        = min o.limit (multiFiltered fetchFor detail query o sl).length := by
      unfold multiShaped
      rw [List.length_take, (sortStep_perm o.sort _).length_eq]
    rw [hlen]
    simp [Nat.le_min]

/-- Witness for the amended C3 at the concrete two-ad single-region
search. -/
theorem C3_capped_amended_witness :
    c1res.pagination.capped = true ↔
      (({} : SearchOptions).limit
          ≤ (singleRun (c1fetchFor none) {} c1page c1ads).items.length ∨
        (MAX_PAGES ≤ (singleRun (c1fetchFor none) {} c1page c1ads).page ∧
          ltTotal ((singleRun (c1fetchFor none) {} c1page c1ads).page * singlePageSize c1page)
            c1page.totalOfAds = true)) :=
  C3_capped_amended.1 (c1fetchFor none) noDetail "q" {} none [] c1page c1ads c1res
    (by rfl) (by rfl) (by rfl)

/-- C9 counterexample: the claim asserts `search`/`searchRaw` fail with a
validation error on an unknown region code or a non-positive numeric
option, but `searchRaw` never validates its `state` option (it goes
straight to `buildUrl`), and neither function inspects `limit`, `timeout`
or `concurrency` (the CLI validates those before calling): `searchRaw` with
the unknown region `"zz"` and `search` with `limit = 0` both complete
normally. -/
theorem C9_counterexample :
    searchRaw c1fetchFor "q" { state := some "zz" } = .ok c1page ∧
    search c1fetchFor noDetail "q" { limit := 0 } = .ok c9res ∧
    c9res.items = [] :=
  ⟨by rfl, by rfl, by rfl⟩

/-- C9 (amended): `search` fails immediately — for every page oracle, hence
before any fetch result is consulted — with a validation error on a truthy
category slug outside the registry, and likewise on the first unknown state
code of the parsed state list once the category check passed; `searchRaw`
fails the same way on an unknown category (it does not validate states, and
neither function validates the numeric options). -/
theorem C9_validation_amended :
    (∀ fetchFor detail query o c, strTruthy o.category = some c → c ∉ CATEGORY_SLUGS →
      search fetchFor detail query o = .error (.unknownCategory c))
    ∧ (∀ fetchFor query o c, strTruthy o.category = some c → c ∉ CATEGORY_SLUGS →
      searchRaw fetchFor query o = .error (.unknownCategory c))
    ∧ (∀ fetchFor detail query o s,
      checkCategory o.category = .ok () →
      (parseStateList o.state).find? (fun s => ¬ s ∈ VALID_STATES) = some s →
      search fetchFor detail query o = .error (.unknownState s)) := by
  have hcat : ∀ cat c, strTruthy cat = some c → c ∉ CATEGORY_SLUGS →
      checkCategory cat = .error (.unknownCategory c) := by
    intro cat c h1 h2
    simp [checkCategory, h1, h2]
  refine ⟨?_, ?_, ?_⟩
  · intro fetchFor detail query o c h1 h2
    unfold search
    rw [hcat o.category c h1 h2]
  · intro fetchFor query o c h1 h2
    unfold searchRaw
    rw [hcat o.category c h1 h2]
  · intro fetchFor detail query o s hok hfind
    have hcs : checkStates (parseStateList o.state) = .error (.unknownState s) := by
      unfold checkStates
      rw [hfind]
    unfold search
    rw [hok, hcs]

/-- Witness for the amended C9 at an unknown category and an unknown
state. -/
theorem C9_validation_amended_witness :
    search c1fetchFor noDetail "q" { category := some "nope" }
        = .error (.unknownCategory "nope") ∧
    searchRaw c1fetchFor "q" { category := some "nope" }
        = .error (.unknownCategory "nope") ∧
    search c1fetchFor noDetail "q" { state := some "zz" } = .error (.unknownState "zz") :=
  ⟨C9_validation_amended.1 c1fetchFor noDetail "q" { category := some "nope" } "nope"
     (by rfl) (by decide),
   C9_validation_amended.2.1 c1fetchFor "q" { category := some "nope" } "nope"
     (by rfl) (by decide),
   C9_validation_amended.2.2 c1fetchFor noDetail "q" { state := some "zz" } "zz"
     (by rfl) (by rfl)⟩

/-- C10: In every completed single-region search with `strict = true` and a
non-empty surviving token list, the strict filter runs before detail
enrichment: the returned items are the enrichment map over the shaped list,
every item of the shaped list was matched with a still-null description, so
its corpus was only the normalized title and listing-page property values;
an item whose tokens appear only in its detail-page description is never in
the shaped list and hence never returned. -/
theorem C10_strict_before_enrichment (fetch : Nat → Option PageState)
    (detail : String → Option DetailData) (query : String) (o : SearchOptions)
    (st : Option String) (sl : List String) (fs : PageState) (ads : List (Option RawAd))
    (r : SearchResult)
    (h : searchSingleState fetch detail query o st sl = .ok r)
    (hf : fetch 1 = some fs) (hads : fs.ads = some ads)
    (hstrict : o.strict = true) (htoks : getQueryTokens query ≠ []) :
    r.items = (singleShaped fetch query o fs ads).map (enrichItem detail)
    ∧ (∀ x ∈ singleShaped fetch query o fs ads,
        x.description = none ∧ matchesTokens x (getQueryTokens query) = true ∧
          corpusOf x = normalize x.title
            ++ (match x.properties with
                | some ps => ps.flatMap (fun p => ' ' :: normalize ((strTruthy p.value).getD ""))
                | none => [])) := by
  obtain ⟨fs2, ads2, hf2, hads2, rfl⟩ := searchSingleState_ok_cases h
  have hfs : fs2 = fs := Option.some.inj (hf2.symm.trans hf)
  have hads' : ads2 = ads := by
    rw [hfs] at hads2
    exact Option.some.inj (hads2.symm.trans hads)
  rw [← hfs, ← hads']
  refine ⟨rfl, ?_⟩
  have hdesc : ∀ x ∈ (singleRun fetch o fs2 ads2).items, x.description = none := by
    unfold singleRun runPagination
    refine pageLoop_forall ?_ (fun raw it hr => parseAd_description hr)
    intro x hx
    obtain ⟨raw, _, hr⟩ := List.mem_filterMap.1 hx
    exact parseAd_description hr
  have hstep : strictStep o.strict query (singleRun fetch o fs2 ads2).items
      = (singleRun fetch o fs2 ads2).items.filter
          (fun it => matchesTokens it (getQueryTokens query)) := by
    rw [hstrict]
    unfold strictStep
    rw [if_pos rfl, if_pos (by
      rcases hq : getQueryTokens query with _ | _
      · exact absurd hq htoks
      · simp)]
  intro x hx
  have hx2 : x ∈ strictStep o.strict query (singleRun fetch o fs2 ads2).items := by
    unfold singleShaped at hx
    exact (sortStep_perm o.sort _).subset ((List.take_sublist _ _).subset hx)
  rw [hstep] at hx2
  obtain ⟨hxmem, hxmatch⟩ := List.mem_filter.1 hx2
  have hd : x.description = none := hdesc x hxmem
  refine ⟨hd, hxmatch, ?_⟩
  unfold corpusOf
  rw [hd]
  simp [strTruthy]

/-- Witness for C10: strict search for `"samsung"` over one matching-title
ad and one ad matching only through its detail description; only the former
is returned. -/
theorem C10_strict_before_enrichment_witness :
    searchSingleState c10fetch c10detail "samsung" c10opts none [] = .ok c10res ∧
    c10res.items
      = (singleShaped c10fetch "samsung" c10opts c10page c10ads).map (enrichItem c10detail) ∧
    c10res.items.map Item.title = ["Samsung S20"] ∧
    (c10detail "https://olx/g1").map DetailData.description
      = some (some "samsung s20 special offer") :=
  ⟨by rfl,
   (C10_strict_before_enrichment c10fetch c10detail "samsung" c10opts none [] c10page c10ads
     c10res (by rfl) (by rfl) (by rfl) (by rfl) (by decide)).1,
   by decide, by decide⟩

/-- C4 counterexample: the claim lists "a fetched page yields zero new
records" among the stop conditions, but the loop only breaks on a page with
zero RAW ads (or failed extraction): here page 2 is identical to page 1 (it
contributes zero new records after dedup), yet the loop goes on to fetch
page 3 — the final page counter is 3, not 2. -/
theorem C4_counterexample :
    c4fetch 2 = c4fetch 1 ∧
    (runPagination c4fetch 2 1 (some 1000) [some (adOf "a" "First" none)]).page = 3 ∧
    (runPagination c4fetch 2 1 (some 1000) [some (adOf "a" "First" none)]).items.map Item.id
      = [some "a", some "b"] :=
  ⟨by rfl, by decide, by decide⟩

/-- C4 (amended): the loop stops at once when any of these holds —
accumulated item count (including any first-page duplicates) at or above
the limit, next page's first index at or beyond the upstream-reported
total, or the fixed 20-page budget reached — and otherwise fetches the next
page, stopping after the fetch when the page fails extraction or carries
zero raw ads (a page whose records are all duplicates does NOT stop it);
with `limit = 100`, `pageSize = 50`, `totalOfAds = 60` at most two pages
are fetched, and when they carry 50 and 10 all-distinct ads the run gathers
exactly 60 items and reports `capped = false`.  (The fuel argument is the
model's recursion bound; every actual run starts with fuel 20, which the
guard `page < 20` keeps from exhausting.) -/
theorem C4_pagination_amended :
    (∀ (fetch : Nat → Option PageState) (limit pageSize : Nat) (total : Option Nat)
        (st : RunState) (fuel : Nat),
      ¬ (st.items.length < limit ∧ ltTotal (st.page * pageSize) total = true ∧
          st.page < MAX_PAGES) →
      pageLoop fetch limit pageSize total st fuel = st)
    ∧ (∀ (fetch : Nat → Option PageState) (limit pageSize : Nat) (total : Option Nat)
        (st : RunState) (fuel : Nat),
      (st.items.length < limit ∧ ltTotal (st.page * pageSize) total = true ∧
        st.page < MAX_PAGES) →
      pageLoop fetch limit pageSize total st (fuel + 1) =
        match fetch (st.page + 1) with
        | none => { st with page := st.page + 1 }
        | some ps =>
          match ps.ads with
          | none => { st with page := st.page + 1 }
          | some ads =>
            if ads.length = 0 then { st with page := st.page + 1 }
            else
              pageLoop fetch limit pageSize total
                { items := ((ads.filterMap parseAd).foldl dedupPush (st.items, st.seen)).1,
                  seen := ((ads.filterMap parseAd).foldl dedupPush (st.items, st.seen)).2,
                  page := st.page + 1 } fuel)
    ∧ (∀ (fetch : Nat → Option PageState) (firstAds : List (Option RawAd)),
      (runPagination fetch 100 50 (some 60) firstAds).page ≤ 2)
    ∧ (∀ (fetch : Nat → Option PageState) (firstAds : List (Option RawAd))
        (ps2 : PageState) (ads2 : List (Option RawAd)),
      fetch 2 = some ps2 → ps2.ads = some ads2 →
      (firstAds.filterMap parseAd).length = 50 →
      (ads2.filterMap parseAd).length = 10 →
      ((firstAds.filterMap parseAd) ++ (ads2.filterMap parseAd)).Pairwise IdsDisjoint →
      (runPagination fetch 100 50 (some 60) firstAds).items.length = 60 ∧
      (runPagination fetch 100 50 (some 60) firstAds).page = 2 ∧
      (decide (100 ≤ (runPagination fetch 100 50 (some 60) firstAds).items.length)
        || (decide (MAX_PAGES ≤ (runPagination fetch 100 50 (some 60) firstAds).page)
            && ltTotal ((runPagination fetch 100 50 (some 60) firstAds).page * 50) (some 60)))
        = false) := by
  refine ⟨fun _ _ _ _ _ _ h => pageLoop_stop h, fun _ _ _ _ _ _ h => pageLoop_go h, ?_, ?_⟩
  · intro fetch firstAds
    unfold runPagination
    by_cases hg : ((firstAds.filterMap parseAd).length < 100 ∧
        ltTotal (1 * 50) (some 60) = true ∧ 1 < MAX_PAGES)
    · rw [show MAX_PAGES = 19 + 1 from rfl]
      rw [@pageLoop_go fetch 100 50 (some 60)
        ⟨firstAds.filterMap parseAd,
          (firstAds.filterMap parseAd).filterMap (fun it => strTruthy it.id), 1⟩ 19 hg]
      split
      · exact le_refl _
      · split
        · exact le_refl _
        · split
          · exact le_refl _
          · rw [pageLoop_stop (by
              intro hc
              have hcontra : ltTotal (2 * 50) (some 60) = true := hc.2.1
              exact absurd hcontra (by decide))]
    · rw [pageLoop_stop hg]
      show (1 : Nat) ≤ 2
      decide
  · intro fetch firstAds ps2 ads2 hf2 hads2 hlen1 hlen2 hdist
    have hpw := List.pairwise_append.1 hdist
    have hfresh : ∀ x ∈ ads2.filterMap parseAd, ∀ v, strTruthy x.id = some v →
        v ∉ (firstAds.filterMap parseAd).filterMap (fun it => strTruthy it.id) := by
      intro x hx v hv hmem
      obtain ⟨a, ha, hav⟩ := List.mem_filterMap.1 hmem
      rcases hpw.2.2 a ha x hx with hnone | hnone | hne
      · rw [hav] at hnone
        cases hnone
      · rw [hv] at hnone
        cases hnone
      · rw [hav, hv] at hne
        exact hne rfl
    have hpush : ((ads2.filterMap parseAd).foldl dedupPush
        (firstAds.filterMap parseAd,
          (firstAds.filterMap parseAd).filterMap (fun it => strTruthy it.id))).1
        = firstAds.filterMap parseAd ++ ads2.filterMap parseAd :=
      foldl_dedupPush_of_fresh hfresh hpw.2.1
    have hads2ne : ¬ ads2.length = 0 := by
      intro h0
      rw [List.length_eq_zero] at h0
      rw [h0] at hlen2
      exact absurd hlen2 (by decide)
    have hg : ((firstAds.filterMap parseAd).length < 100 ∧
        ltTotal (1 * 50) (some 60) = true ∧ 1 < MAX_PAGES) := by
      refine ⟨?_, by decide, by decide⟩
      rw [hlen1]
      decide
    have hrun : runPagination fetch 100 50 (some 60) firstAds
        = ⟨firstAds.filterMap parseAd ++ ads2.filterMap parseAd,
            ((ads2.filterMap parseAd).foldl dedupPush
              (firstAds.filterMap parseAd,
                (firstAds.filterMap parseAd).filterMap (fun it => strTruthy it.id))).2,
            2⟩ := by
      unfold runPagination
      rw [show MAX_PAGES = 19 + 1 from rfl]
      rw [@pageLoop_go fetch 100 50 (some 60)
        ⟨firstAds.filterMap parseAd,
          (firstAds.filterMap parseAd).filterMap (fun it => strTruthy it.id), 1⟩ 19 hg]
      rw [hf2]
      show (match ps2.ads with
        | none => _
        | some ads => _) = _
      rw [hads2]
      show (if ads2.length = 0 then _ else _) = _
      rw [if_neg hads2ne]
      rw [pageLoop_stop (by
        intro hc
        have hcontra : ltTotal (2 * 50) (some 60) = true := hc.2.1
        exact absurd hcontra (by decide))]
      rw [hpush]
    rw [hrun]
    refine ⟨?_, rfl, ?_⟩
    · show (firstAds.filterMap parseAd ++ ads2.filterMap parseAd).length = 60
      rw [List.length_append, hlen1, hlen2]
    · show (decide (100 ≤ (firstAds.filterMap parseAd ++ ads2.filterMap parseAd).length)
        || (decide (MAX_PAGES ≤ 2) && ltTotal (2 * 50) (some 60))) = false
      rw [List.length_append, hlen1, hlen2]
      decide

/-- Witness for the amended C4 at the concrete 50-ad/10-ad scenario. -/
theorem C4_pagination_amended_witness :
    c4wFetch 2 = some c4wPage2 ∧
    (runPagination c4wFetch 100 50 (some 60) c4wAds1).items.length = 60 ∧
    (runPagination c4wFetch 100 50 (some 60) c4wAds1).page = 2 :=
  ⟨by rfl,
   (C4_pagination_amended.2.2.2 c4wFetch c4wAds1 c4wPage2 c4wAds2 (by rfl) (by rfl)
     (by decide) (by decide) (by decide)).1,
   (C4_pagination_amended.2.2.2 c4wFetch c4wAds1 c4wPage2 c4wAds2 (by rfl) (by rfl)
     (by decide) (by decide) (by decide)).2.1⟩

end OLX
